import Mathlib

/-!
# AnimatedBG: the glow-wave background renderer

A shallow embedding of `src/components/animated-bg.jsx`.

* Numbers are elements of a linearly ordered field `α` (exact arithmetic; `ℚ` for
  evaluation, `ℝ` where the sine matters).  `Math.sin` and the host queries are
  fields of an environment record.
* The closure variables of the effect (`width`, `height`, `last`, `t`), the two refs,
  the canvas with its 2D context, and the host tables that the component touches
  (animation-frame callbacks, timeouts, the resize listener) are fields of one
  explicit state record; every function of the source is a state transformer.
* The 2D context keeps its drawing state (transform, styles, filter, blend mode),
  its save/restore stack and its current path between calls, as in the browser.
-/

namespace AnimatedBG

/-! ## Data model -/

/-- One entry of the waves prop; the color string r,g,b is kept as its three channels. -/
structure WaveSpec (α : Type) where
  yBase : α
  amplitude : α
  frequency : α
  speed : α
  color : ℕ × ℕ × ℕ

/-- The props of the component: waves, speed, segments. -/
structure Props (α : Type) where
  waves : List (WaveSpec α)
  speed : α
  segments : ℕ

/-- A sampled point of a wave, in CSS pixels. -/
structure Point (α : Type) where
  x : α
  y : α

/-- The current transformation matrix, as the six arguments of setTransform. -/
structure Transform (α : Type) where
  a : α
  b : α
  c : α
  d : α
  e : α
  f : α

/-- A CSS color: three 8-bit channels and an alpha in the unit interval. -/
structure Rgba (α : Type) where
  r : ℕ
  g : ℕ
  b : ℕ
  alpha : α

/-- A pixel of the backing store: premultiplied channels in the unit interval. -/
structure Pixel (α : Type) where
  r : α
  g : α
  b : α
  a : α

/-- The values of globalCompositeOperation that occur: the default and lighter. -/
inductive CompositeOp where
  | sourceOver
  | lighter
  deriving DecidableEq

inductive LineCap where
  | butt
  | round
  | square
  deriving DecidableEq

inductive LineJoin where
  | miter
  | round
  | bevel
  deriving DecidableEq

/-- The part of the 2D context that save pushes and restore pops. -/
structure DrawState (α : Type) where
  transform : Transform α
  fillStyle : Rgba α
  strokeStyle : Rgba α
  lineWidth : α
  lineCap : LineCap
  lineJoin : LineJoin
  filterBlur : α
  globalCompositeOperation : CompositeOp

/-- The 2D context: current drawing state, the stack of saved states, and the current
path (sub-paths in device space, newest first). -/
structure Context (α : Type) where
  cur : DrawState α
  stack : List (DrawState α)
  path : List (List (Point α))

/-- A CSS length of the canvas style: a percentage (from the JSX) or pixels. -/
inductive CssLength (α : Type) where
  | percent (p : α)
  | px (v : α)

/-- The canvas element: backing-store size, CSS size, and the bitmap. -/
structure Canvas (α : Type) where
  width : ℤ
  height : ℤ
  styleWidth : CssLength α
  styleHeight : CssLength α
  pixels : ℤ → ℤ → Pixel α

/-- The canvas together with its context. -/
structure Surface (α : Type) where
  canvas : Canvas α
  ctx : Context α

/-- The host environment: Math.sin, the window queries as functions of host time, and
the rasteriser of the browser (coverage of a pixel by a stroke, and by a fill that is
rotated, sheared or filtered). -/
structure Env (α : Type) where
  sin : α → α
  innerWidth : α → α
  innerHeight : α → α
  devicePixelRatio : α → Option α
  strokeCoverage : DrawState α → List (List (Point α)) → ℤ → ℤ → α
  fillCoverage : DrawState α → α → α → α → α → ℤ → ℤ → α

/-- A record of an invocation of resize or render (instrumentation only). -/
inductive Call (α : Type) where
  | resize (clock width height : α)
  | render (now : α)

/-- The state of one mounted instance. -/
structure State (α : Type) where
  /-- Closure variable width. -/
  width : α
  /-- Closure variable height. -/
  height : α
  /-- Closure variable last. -/
  last : α
  /-- Closure variable t, the phase. -/
  t : α
  /-- The ref rafRef.current (none is null). -/
  rafRef : Option ℕ
  /-- The ref resizeTimeout.current (none is null). -/
  resizeTimeout : Option ℕ
  surface : Surface α
  /-- Handles of the pending animation-frame callbacks (each callback is render). -/
  rafCallbacks : List ℕ
  /-- The animation frame callback identifier of the host (last handle issued). -/
  rafId : ℕ
  /-- Pending timeouts as (id, fire time); each callback is resize. -/
  timers : List (ℕ × α)
  /-- The last timeout id issued by the host. -/
  timerId : ℕ
  /-- Whether handleResize is registered for the resize event of the window. -/
  resizeListener : Bool
  /-- The invocations of resize and render so far (instrumentation only). -/
  trace : List (Call α)

section Defs

variable {α : Type} [LinearOrderedField α]

/-- The constant DEFAULT_WAVES. -/
def DEFAULT_WAVES : List (WaveSpec α) :=
  [ { yBase := 0.3, amplitude := 50, frequency := 0.003, speed := 0.8, color := (160, 60, 255) },
    { yBase := 0.5, amplitude := 60, frequency := 0.0025, speed := 0.5, color := (130, 50, 210) },
    { yBase := 0.7, amplitude := 45, frequency := 0.004, speed := 0.9, color := (200, 110, 255) } ]

/-- The default props: waves = DEFAULT_WAVES, speed = 1, segments = 140. -/
def defaultProps : Props α :=
  { waves := DEFAULT_WAVES, speed := 1, segments := 140 }

/-! ## Wave sampling (the loop of lines 73 to 80) -/

/-- The body of the sampling loop for index i: the point pushed onto points. -/
def wavePoint (sin : α → α) (w : WaveSpec α) (t width height : α) (segments i : ℕ) : Point α :=
  let x := ((i : α) / (segments : α)) * width
  let primary := sin (x * w.frequency + t * w.speed)
  let secondary := sin (x * (w.frequency * 0.5) + t * (w.speed * 1.3))
  let y := height * w.yBase + (primary + secondary) * w.amplitude
  { x := x, y := y }

/-- The loop for (let i = 0; i <= segments; i++) points.push(...), from index i on. -/
def sampleLoop (sin : α → α) (w : WaveSpec α) (t width height : α) (segments : ℕ)
    (i : ℕ) (points : List (Point α)) : List (Point α) :=
  if i ≤ segments then
    sampleLoop sin w t width height segments (i + 1)
      (points ++ [wavePoint sin w t width height segments i])
  else points
termination_by segments + 1 - i

/-- The array points built for one wave in one frame. -/
def samplePoints (sin : α → α) (w : WaveSpec α) (t width height : α) (segments : ℕ) :
    List (Point α) :=
  sampleLoop sin w t width height segments 0 []

/-! ## The canvas 2D context -/

def Transform.identity : Transform α :=
  { a := 1, b := 0, c := 0, d := 1, e := 0, f := 0 }

/-- The image of a point under the transformation matrix. -/
def Transform.apply (m : Transform α) (p : Point α) : Point α :=
  { x := m.a * p.x + m.c * p.y + m.e, y := m.b * p.x + m.d * p.y + m.f }

/-- The color #000000. -/
def Rgba.black : Rgba α :=
  { r := 0, g := 0, b := 0, alpha := 1 }

def Pixel.transparent : Pixel α :=
  { r := 0, g := 0, b := 0, a := 0 }

def Pixel.opaqueBlack : Pixel α :=
  { r := 0, g := 0, b := 0, a := 1 }

/-- The drawing state of a fresh (or reset) context. -/
def DrawState.default : DrawState α :=
  { transform := Transform.identity
    fillStyle := Rgba.black
    strokeStyle := Rgba.black
    lineWidth := 1
    lineCap := LineCap.butt
    lineJoin := LineJoin.miter
    filterBlur := 0
    globalCompositeOperation := CompositeOp.sourceOver }

/-- A fresh (or reset) context: default state, empty stack, empty path. -/
def Context.default : Context α :=
  { cur := DrawState.default, stack := [], path := [] }

def Context.save (c : Context α) : Context α :=
  { c with stack := c.cur :: c.stack }

def Context.restore (c : Context α) : Context α :=
  match c.stack with
  | [] => c
  | d :: rest => { c with cur := d, stack := rest }

def Context.setTransform (a b c d e f : α) (cx : Context α) : Context α :=
  { cx with cur := { cx.cur with transform := { a := a, b := b, c := c, d := d, e := e, f := f } } }

def Context.setFillStyle (v : Rgba α) (c : Context α) : Context α :=
  { c with cur := { c.cur with fillStyle := v } }

def Context.setStrokeStyle (v : Rgba α) (c : Context α) : Context α :=
  { c with cur := { c.cur with strokeStyle := v } }

def Context.setLineWidth (v : α) (c : Context α) : Context α :=
  { c with cur := { c.cur with lineWidth := v } }

def Context.setLineCap (v : LineCap) (c : Context α) : Context α :=
  { c with cur := { c.cur with lineCap := v } }

def Context.setLineJoin (v : LineJoin) (c : Context α) : Context α :=
  { c with cur := { c.cur with lineJoin := v } }

/-- The assignment ctx.filter = blur(v px). -/
def Context.setFilterBlur (v : α) (c : Context α) : Context α :=
  { c with cur := { c.cur with filterBlur := v } }

def Context.setGlobalCompositeOperation (v : CompositeOp) (c : Context α) : Context α :=
  { c with cur := { c.cur with globalCompositeOperation := v } }

def Context.beginPath (c : Context α) : Context α :=
  { c with path := [] }

/-- A new sub-path starting at the transformed point. -/
def Context.moveTo (x y : α) (c : Context α) : Context α :=
  { c with path := [c.cur.transform.apply { x := x, y := y }] :: c.path }

/-- The transformed point is appended to the newest sub-path (a first sub-path is started
when there is none). -/
def Context.lineTo (x y : α) (c : Context α) : Context α :=
  match c.path with
  | [] => { c with path := [[c.cur.transform.apply { x := x, y := y }]] }
  | sp :: rest => { c with path := (sp ++ [c.cur.transform.apply { x := x, y := y }]) :: rest }

/-- The premultiplied source pixel of a color drawn with the given coverage. -/
def sourcePixel (c : Rgba α) (coverage : α) : Pixel α :=
  { r := (c.r : α) / 255 * (c.alpha * coverage)
    g := (c.g : α) / 255 * (c.alpha * coverage)
    b := (c.b : α) / 255 * (c.alpha * coverage)
    a := c.alpha * coverage }

/-- Compositing of a source pixel onto a backdrop pixel (premultiplied): source-over
replaces in proportion to the source alpha, lighter adds and clamps. -/
def blend (op : CompositeOp) (s d : Pixel α) : Pixel α :=
  match op with
  | CompositeOp.sourceOver =>
    { r := s.r + d.r * (1 - s.a), g := s.g + d.g * (1 - s.a), b := s.b + d.b * (1 - s.a),
      a := s.a + d.a * (1 - s.a) }
  | CompositeOp.lighter =>
    { r := min 1 (s.r + d.r), g := min 1 (s.g + d.g), b := min 1 (s.b + d.b),
      a := min 1 (s.a + d.a) }

/-- The length of the part of the pixel interval from i to i+1 covered by the interval
between lo and hi. -/
def overlap (lo hi : α) (i : ℤ) : α :=
  max 0 (min (max lo hi) ((i : α) + 1) - max (min lo hi) (i : α))

/-- The area of pixel (i, j) covered by the rectangle x y w h under an axis-aligned
transform. -/
def rectCoverage (m : Transform α) (x y w h : α) (i j : ℤ) : α :=
  overlap (m.a * x + m.e) (m.a * (x + w) + m.e) i * overlap (m.d * y + m.f) (m.d * (y + h) + m.f) j

/-- Painting: every pixel of the bitmap is composited with the source color at its
coverage; there are no pixels outside the bitmap. -/
def Canvas.paint (op : CompositeOp) (color : Rgba α) (coverage : ℤ → ℤ → α) (cv : Canvas α) :
    Canvas α :=
  { cv with pixels := fun i j =>
      if 0 ≤ i ∧ i < cv.width ∧ 0 ≤ j ∧ j < cv.height then
        blend op (sourcePixel color (coverage i j)) (cv.pixels i j)
      else cv.pixels i j }

/-- The call ctx.fillRect(x, y, w, h): exact coverage when the transform is axis-aligned
and no filter is set, the coverage of the rasteriser otherwise. -/
def Surface.fillRect (env : Env α) (x y w h : α) (sf : Surface α) : Surface α :=
  let d := sf.ctx.cur
  let coverage : ℤ → ℤ → α := fun i j =>
    if d.transform.b = 0 ∧ d.transform.c = 0 ∧ d.filterBlur = 0 then
      rectCoverage d.transform x y w h i j
    else env.fillCoverage d x y w h i j
  { sf with canvas := sf.canvas.paint d.globalCompositeOperation d.fillStyle coverage }

/-- The call ctx.stroke(): the current path is painted in the stroke style with the
coverage of the rasteriser. -/
def Surface.stroke (env : Env α) (sf : Surface α) : Surface α :=
  let d := sf.ctx.cur
  { sf with canvas :=
      sf.canvas.paint d.globalCompositeOperation d.strokeStyle (env.strokeCoverage d sf.ctx.path) }

/-- Apply a context operation to the context of a surface. -/
def Surface.onCtx (op : Context α → Context α) (sf : Surface α) : Surface α :=
  { sf with ctx := op sf.ctx }

/-- Assigning canvas.width or canvas.height: the bitmap is cleared to transparent black
and the context is reset to its default state. -/
def Surface.setCanvasWidth (v : ℤ) (sf : Surface α) : Surface α :=
  { canvas := { sf.canvas with width := v, pixels := fun _ _ => Pixel.transparent }
    ctx := Context.default }

def Surface.setCanvasHeight (v : ℤ) (sf : Surface α) : Surface α :=
  { canvas := { sf.canvas with height := v, pixels := fun _ _ => Pixel.transparent }
    ctx := Context.default }

/-- The canvas element as rendered by the JSX before the effect runs: 300 by 150
backing store, style width and height 100%. -/
def Surface.initial : Surface α :=
  { canvas :=
      { width := 300, height := 150, styleWidth := CssLength.percent 100,
        styleHeight := CssLength.percent 100, pixels := fun _ _ => Pixel.transparent }
    ctx := Context.default }

/-! ## The functions of the effect -/

/-- The helper getDPR: window.devicePixelRatio || 1 (undefined and 0 are falsy). -/
def getDPR (env : Env α) (clock : α) : α :=
  match env.devicePixelRatio clock with
  | none => 1
  | some d => if d = 0 then 1 else d

/-- Truthiness of a ref that holds null or a handle. -/
def truthy (h : Option ℕ) : Bool :=
  match h with
  | none => false
  | some n => n != 0

/-- The function drawWave(points, color, blur, lineWidth, alpha).  The case of an empty
points array (where points[0].x would throw) does not arise: see samplePoints. -/
def drawWave (env : Env α) (points : List (Point α)) (color : ℕ × ℕ × ℕ)
    (blur lineWidth alpha : α) (sf : Surface α) : Surface α :=
  let sf := sf.onCtx Context.save
  let sf := sf.onCtx Context.beginPath
  let sf := sf.onCtx (Context.setFilterBlur blur)
  let sf := sf.onCtx (Context.setStrokeStyle
    { r := color.1, g := color.2.1, b := color.2.2, alpha := alpha })
  let sf := sf.onCtx (Context.setLineWidth lineWidth)
  let sf := sf.onCtx (Context.setLineCap LineCap.round)
  let sf := sf.onCtx (Context.setLineJoin LineJoin.round)
  let sf := match points with
    | [] => sf
    | p :: _ => sf.onCtx (Context.moveTo p.x p.y)
  let sf := points.tail.foldl (fun sf p => sf.onCtx (Context.lineTo p.x p.y)) sf
  let sf := sf.stroke env
  sf.onCtx Context.restore

/-- The host call requestAnimationFrame(render) followed by the assignment of its handle
to rafRef.current. -/
def requestFrame (s : State α) : State α :=
  { s with rafId := s.rafId + 1, rafCallbacks := s.rafCallbacks ++ [s.rafId + 1],
           rafRef := some (s.rafId + 1) }

/-- The host call cancelAnimationFrame(handle). -/
def cancelAnimationFrame (handle : ℕ) (s : State α) : State α :=
  { s with rafCallbacks := s.rafCallbacks.filter (fun h => h != handle) }

/-- The host call clearTimeout(id). -/
def clearTimeout (id : ℕ) (s : State α) : State α :=
  { s with timers := s.timers.filter (fun tm => tm.1 != id) }

/-- Lines 58 to 60 of render: the clamped delta, the stored timestamp, the phase. -/
def renderTick (props : Props α) (now : α) (s : State α) : State α :=
  let dt := min 0.05 ((now - s.last) / 1000)
  { s with last := now, t := s.t + dt * props.speed * 0.8 }

/-- Lines 63 to 67 of render: the clear step. -/
def renderClear (env : Env α) (sf : Surface α) : Surface α :=
  let sf := sf.onCtx Context.save
  let sf := sf.onCtx (Context.setTransform 1 0 0 1 0 0)
  let sf := sf.onCtx (Context.setFillStyle Rgba.black)
  let sf := sf.fillRect env 0 0 (sf.canvas.width : α) (sf.canvas.height : α)
  sf.onCtx Context.restore

/-- The body of waves.forEach for one wave: the points and the four glow layers. -/
def renderWave (env : Env α) (props : Props α) (t width height : α) (sf : Surface α)
    (w : WaveSpec α) : Surface α :=
  let points := samplePoints env.sin w t width height props.segments
  let sf := drawWave env points w.color 40 28 0.12 sf
  let sf := drawWave env points w.color 25 18 0.2 sf
  let sf := drawWave env points w.color 14 12 0.3 sf
  drawWave env points w.color 4 4 0.85 sf

/-- Lines 70 to 87 of render: the blend mode and the waves. -/
def renderWaves (env : Env α) (props : Props α) (t width height : α) (sf : Surface α) :
    Surface α :=
  let sf := sf.onCtx (Context.setGlobalCompositeOperation CompositeOp.lighter)
  props.waves.foldl (renderWave env props t width height) sf

/-- The function render(now). -/
def render (env : Env α) (props : Props α) (now : α) (s : State α) : State α :=
  let s := { s with trace := s.trace ++ [Call.render now] }
  let s := renderTick props now s
  let s := { s with surface := renderClear env s.surface }
  let s := { s with surface := renderWaves env props s.t s.width s.height s.surface }
  requestFrame s

/-- The pixel that the four glow layers of a wave of the given color leave in lighter mode
where each of the four strokes covers the pixel fully. -/
def glowPixel (color : ℕ × ℕ × ℕ) (p : Pixel α) : Pixel α :=
  blend CompositeOp.lighter
    (sourcePixel { r := color.1, g := color.2.1, b := color.2.2, alpha := 0.85 } 1)
    (blend CompositeOp.lighter
      (sourcePixel { r := color.1, g := color.2.1, b := color.2.2, alpha := 0.3 } 1)
      (blend CompositeOp.lighter
        (sourcePixel { r := color.1, g := color.2.1, b := color.2.2, alpha := 0.2 } 1)
        (blend CompositeOp.lighter
          (sourcePixel { r := color.1, g := color.2.1, b := color.2.2, alpha := 0.12 } 1) p)))

end Defs

section FloorDefs

variable {α : Type} [LinearOrderedField α] [FloorRing α]

/-- The function resize(), run at host time clock. -/
def resize (env : Env α) (clock : α) (s : State α) : State α :=
  let dpr := getDPR env clock
  let width := env.innerWidth clock
  let height := env.innerHeight clock
  let sf := s.surface
  let sf := { sf with canvas := { sf.canvas with styleWidth := CssLength.px width } }
  let sf := { sf with canvas := { sf.canvas with styleHeight := CssLength.px height } }
  let sf := sf.setCanvasWidth (max 1 ⌊width * dpr⌋)
  let sf := sf.setCanvasHeight (max 1 ⌊height * dpr⌋)
  let sf := sf.onCtx (Context.setTransform dpr 0 0 dpr 0 0)
  { s with width := width, height := height, surface := sf,
           trace := s.trace ++ [Call.resize clock width height] }

/-- The function handleResize(), run at host time clock: a pending timeout is cleared and
a new one is set to run resize 120 later. -/
def handleResize (clock : α) (s : State α) : State α :=
  let s := if truthy s.resizeTimeout then clearTimeout (s.resizeTimeout.getD 0) s else s
  { s with timerId := s.timerId + 1, timers := s.timers ++ [(s.timerId + 1, clock + 120)],
           resizeTimeout := some (s.timerId + 1) }

/-- The body of the effect after the context has been acquired, run at host time clock on
a host whose last issued frame handle and timeout id are rafId and timerId. -/
def mount (env : Env α) (clock : α) (rafId timerId : ℕ) : State α :=
  let s : State α :=
    { width := 0, height := 0, last := clock, t := 0, rafRef := none, resizeTimeout := none,
      surface := Surface.initial, rafCallbacks := [], rafId := rafId, timers := [],
      timerId := timerId, resizeListener := false, trace := [] }
  let s := resize env clock s
  let s := requestFrame s
  { s with resizeListener := true }

/-- The effect: nothing is set up when the canvas or its context is missing. -/
def effect (env : Env α) (hasCanvas hasCtx : Bool) (clock : α) (rafId timerId : ℕ) :
    Option (State α) :=
  if !hasCanvas then none
  else if !hasCtx then none
  else some (mount env clock rafId timerId)

/-- The cleanup function returned by the effect. -/
def cleanup (s : State α) : State α :=
  let s := { s with resizeListener := false }
  let s := if truthy s.rafRef then cancelAnimationFrame (s.rafRef.getD 0) s else s
  if truthy s.resizeTimeout then clearTimeout (s.resizeTimeout.getD 0) s else s

/-! ## The host event loop -/

/-- What the host can do to the instance. -/
inductive Event (α : Type) where
  /-- The host runs the animation-frame callbacks with timestamp now. -/
  | animationFrame (now : α)
  /-- The host dispatches a resize event at time clock. -/
  | resizeNotification (clock : α)
  /-- The host runs the timeouts that are due at time clock. -/
  | timersDue (clock : α)

/-- Run the animation-frame callbacks: the list of callbacks is emptied, then each is
invoked with the timestamp. -/
def runAnimationFrame (env : Env α) (props : Props α) (now : α) (s : State α) : State α :=
  s.rafCallbacks.foldl (fun s _ => render env props now s) { s with rafCallbacks := [] }

/-- Dispatch a resize event. -/
def dispatchResize (clock : α) (s : State α) : State α :=
  if s.resizeListener then handleResize clock s else s

/-- Run the timeouts whose fire time is at most clock: they leave the table, then the
callback of each (resize) runs, at the host time clock. -/
def runTimers (env : Env α) (clock : α) (s : State α) : State α :=
  (s.timers.filter (fun tm => decide (tm.2 ≤ clock))).foldl (fun s _ => resize env clock s)
    { s with timers := s.timers.filter (fun tm => !decide (tm.2 ≤ clock)) }

def step (env : Env α) (props : Props α) (s : State α) (e : Event α) : State α :=
  match e with
  | Event.animationFrame now => runAnimationFrame env props now s
  | Event.resizeNotification clock => dispatchResize clock s
  | Event.timersDue clock => runTimers env clock s

/-- The state after a sequence of host events. -/
def run (env : Env α) (props : Props α) (s : State α) (es : List (Event α)) : State α :=
  es.foldl (step env props) s

/-- The renders the host performs for a list of frame timestamps. -/
def frameEvents (nows : List α) : List (Event α) :=
  nows.map Event.animationFrame

/-- The sum of the clamped deltas min(0.05, (now - last) / 1000) over a list of frame
timestamps, last being the timestamp stored before the first of them. -/
def clampedSum (last : α) : List α → α
  | [] => 0
  | now :: rest => min 0.05 ((now - last) / 1000) + clampedSum now rest

/-- A concrete host over the rationals, for evaluation: the viewport is 1001 by 801 before
time 100 and 641 by 481 from then on, the pixel ratio is 1.5, every stroke and every
transformed fill covers every pixel fully, and the sine is replaced by the zero function
(no evaluation below depends on it). -/
def exampleHost : Env ℚ :=
  { sin := fun _ => 0
    innerWidth := fun clock => if clock < 100 then 1001 else 641
    innerHeight := fun clock => if clock < 100 then 801 else 481
    devicePixelRatio := fun _ => some (3 / 2)
    strokeCoverage := fun _ _ _ _ => 1
    fillCoverage := fun _ _ _ _ _ _ _ => 1 }

/-- The calls of resize recorded in a trace, as (host time, width read, height read). -/
def resizeCalls : List (Call α) → List (α × α × α)
  | [] => []
  | Call.resize clock width height :: rest => (clock, width, height) :: resizeCalls rest
  | Call.render _ :: rest => resizeCalls rest

/-- A schedule of host events that continues a burst of resize notifications, prev being the
time of the latest notification: each further notification comes at or after the latest one
and less than q after it, the host runs its timeouts only at times less than q after the
latest notification, and animation frames come at any time. -/
def quietBurst (q : α) : α → List (Event α) → Bool
  | _, [] => true
  | prev, Event.animationFrame _ :: rest => quietBurst q prev rest
  | prev, Event.resizeNotification clock :: rest =>
    decide (prev ≤ clock) && decide (clock < prev + q) && quietBurst q clock rest
  | prev, Event.timersDue clock :: rest => decide (clock < prev + q) && quietBurst q prev rest

/-- The time of the last notification of a schedule, prev being the time of the latest
notification before it. -/
def lastNotify : α → List (Event α) → α
  | prev, [] => prev
  | _, Event.resizeNotification clock :: rest => lastNotify clock rest
  | prev, Event.animationFrame _ :: rest => lastNotify prev rest
  | prev, Event.timersDue _ :: rest => lastNotify prev rest

/-- No resize notification occurs in the schedule. -/
def noNotification : List (Event α) → Bool
  | [] => true
  | Event.resizeNotification _ :: _ => false
  | Event.animationFrame _ :: rest => noNotification rest
  | Event.timersDue _ :: rest => noNotification rest

/-- At most one animation-frame callback and at most one timeout are pending, and the refs
hold their (non-zero) handles. -/
def Inv (s : State α) : Prop :=
  (s.rafCallbacks = [] ∨ ∃ h, h ≠ 0 ∧ s.rafCallbacks = [h] ∧ s.rafRef = some h) ∧
  (s.timers = [] ∨ ∃ id fire, id ≠ 0 ∧ s.timers = [(id, fire)] ∧ s.resizeTimeout = some id)

/-- A concrete host whose viewport is 0 by 0 and whose pixel ratio is missing. -/
def degenerateHost : Env ℚ :=
  { sin := fun _ => 0
    innerWidth := fun _ => 0
    innerHeight := fun _ => 0
    devicePixelRatio := fun _ => none
    strokeCoverage := fun _ _ _ _ => 1
    fillCoverage := fun _ _ _ _ _ _ _ => 1 }

end FloorDefs

section SamplingProofs

variable {α : Type} [LinearOrderedField α]

theorem sampleLoop_eq (sin : α → α) (w : WaveSpec α) (t width height : α) (segments : ℕ)
    (k : ℕ) : ∀ (i : ℕ) (points : List (Point α)), segments + 1 - i = k →
    sampleLoop sin w t width height segments i points =
      points ++ (List.range' i k).map (wavePoint sin w t width height segments) := by
  induction k with
  | zero =>
    intro i points h
    rw [sampleLoop, if_neg (by omega)]
    simp
  | succ k ih =>
    intro i points h
    rw [sampleLoop, if_pos (by omega), ih (i + 1) _ (by omega)]
    simp [List.range']

theorem samplePoints_eq (sin : α → α) (w : WaveSpec α) (t width height : α) (segments : ℕ) :
    samplePoints sin w t width height segments =
      (List.range (segments + 1)).map (wavePoint sin w t width height segments) := by
  rw [samplePoints, sampleLoop_eq sin w t width height segments (segments + 1) 0 [] (by omega)]
  simp [List.range_eq_range']

theorem samplePoints_getElem? (sin : α → α) (w : WaveSpec α) (t width height : α)
    (segments i : ℕ) (hi : i ≤ segments) :
    (samplePoints sin w t width height segments)[i]? =
      some (wavePoint sin w t width height segments i) := by
  rw [samplePoints_eq, List.getElem?_map, List.getElem?_range (by omega)]
  rfl

theorem samplePoints_length (sin : α → α) (w : WaveSpec α) (t width height : α)
    (segments : ℕ) : (samplePoints sin w t width height segments).length = segments + 1 := by
  rw [samplePoints_eq]
  simp

/-- C2: the point sequence of a wave has segments + 1 points whatever the width, height
and phase (141 for the default segments), its first point has x = 0 and its last point has
x = width. -/
theorem C2_point_count (sin : α → α) (w : WaveSpec α) (t width height : α) (segments : ℕ)
    (hseg : 0 < segments) :
    (samplePoints sin w t width height segments).length = segments + 1 ∧
    (samplePoints sin w t width height (defaultProps : Props α).segments).length = 141 ∧
    ((samplePoints sin w t width height segments).head?).map Point.x = some 0 ∧
    ((samplePoints sin w t width height segments).getLast?).map Point.x = some width := by
  refine ⟨samplePoints_length _ _ _ _ _ _, samplePoints_length _ _ _ _ _ _, ?_, ?_⟩
  · rw [List.head?_eq_getElem?, samplePoints_getElem? _ _ _ _ _ _ _ (Nat.zero_le _)]
    simp [wavePoint]
  · rw [List.getLast?_eq_getElem?, samplePoints_length, Nat.add_sub_cancel,
      samplePoints_getElem? _ _ _ _ _ _ _ (le_refl _)]
    have h : (segments : α) ≠ 0 := by exact_mod_cast hseg.ne'
    simp [wavePoint, h]

theorem C2_point_count_witness :
    (samplePoints (fun _ => 0) (⟨1 / 2, 1, 1, 1, (0, 0, 0)⟩ : WaveSpec ℚ) 3 10 20 2).length = 3 ∧
    ((samplePoints (fun _ => 0) (⟨1 / 2, 1, 1, 1, (0, 0, 0)⟩ : WaveSpec ℚ) 3 10 20 2).getLast?).map
      Point.x = some 10 :=
  have h := C2_point_count (fun _ => (0 : ℚ)) ⟨1 / 2, 1, 1, 1, (0, 0, 0)⟩ 3 10 20 2 (by decide)
  ⟨h.1, h.2.2.2⟩

/-- C1: over the reals, the i-th point of a wave has x = (i / segments) * width and
y = height * yBase + (sin (x * frequency + t * speed)
  + sin (x * frequency * 0.5 + t * speed * 1.3)) * amplitude; at i = 0 and phase 0 this is
y = height * yBase, which is 240 for the first default wave at height 800. -/
theorem C1_wave_sampling (w : WaveSpec ℝ) (t width height : ℝ) (segments i : ℕ)
    (_hseg : 0 < segments) (hi : i ≤ segments) :
    (∃ p : Point ℝ, (samplePoints Real.sin w t width height segments)[i]? = some p ∧
      p.x = ((i : ℝ) / (segments : ℝ)) * width ∧
      p.y = height * w.yBase +
        (Real.sin (p.x * w.frequency + t * w.speed) +
          Real.sin (p.x * w.frequency * 0.5 + t * w.speed * 1.3)) * w.amplitude ∧
      (i = 0 → t = 0 → p.y = height * w.yBase)) ∧
    (∀ w0 : WaveSpec ℝ, (DEFAULT_WAVES : List (WaveSpec ℝ))[0]? = some w0 →
      ∃ p : Point ℝ, (samplePoints Real.sin w0 0 width 800 segments)[0]? = some p ∧ p.y = 240) := by
  constructor
  · refine ⟨wavePoint Real.sin w t width height segments i,
      samplePoints_getElem? _ _ _ _ _ _ _ hi, rfl, ?_, ?_⟩
    · simp only [wavePoint]
      rw [mul_assoc (_ * width) w.frequency 0.5, mul_assoc t w.speed 1.3]
    · intro h0 ht
      subst h0 ht
      simp [wavePoint]
  · intro w0 hw0
    simp only [DEFAULT_WAVES, List.getElem?_cons_zero, Option.some.injEq] at hw0
    subst hw0
    refine ⟨_, samplePoints_getElem? _ _ _ _ _ _ _ (Nat.zero_le _), ?_⟩
    simp [wavePoint]
    norm_num

theorem C1_wave_sampling_witness :
    ∃ p : Point ℝ,
      (samplePoints Real.sin (⟨0.3, 50, 0.003, 0.8, (160, 60, 255)⟩ : WaveSpec ℝ) 0 1000 800 140)[0]?
        = some p ∧ p.y = 800 * 0.3 := by
  obtain ⟨p, hp, _, _, h0⟩ :=
    (C1_wave_sampling ⟨0.3, 50, 0.003, 0.8, (160, 60, 255)⟩ 0 1000 800 140 0
      (by decide) (by decide)).1
  exact ⟨p, hp, h0 rfl rfl⟩

end SamplingProofs

section PhaseProofs

variable {α : Type} [LinearOrderedField α]

theorem render_t (env : Env α) (props : Props α) (now : α) (s : State α) :
    (render env props now s).t = s.t + min 0.05 ((now - s.last) / 1000) * props.speed * 0.8 :=
  rfl

theorem render_last (env : Env α) (props : Props α) (now : α) (s : State α) :
    (render env props now s).last = now :=
  rfl

theorem render_rafCallbacks (env : Env α) (props : Props α) (now : α) (s : State α) :
    (render env props now s).rafCallbacks = s.rafCallbacks ++ [s.rafId + 1] :=
  rfl

theorem mount_rafCallbacks [FloorRing α] (env : Env α) (clock : α) (rafId timerId : ℕ) :
    (mount env clock rafId timerId).rafCallbacks = [rafId + 1] :=
  rfl

/-- With exactly one callback pending, running the animation frame is one call of render. -/
theorem runAnimationFrame_single [FloorRing α] (env : Env α) (props : Props α) (now : α) (s : State α)
    (h : s.rafCallbacks.length = 1) :
    runAnimationFrame env props now s = render env props now { s with rafCallbacks := [] } := by
  match hs : s.rafCallbacks, h with
  | [a], _ => simp [runAnimationFrame, hs]

theorem run_frames_phase [FloorRing α] (env : Env α) (props : Props α) :
    ∀ (nows : List α) (s : State α), s.rafCallbacks.length = 1 →
      (run env props s (frameEvents nows)).t = s.t + clampedSum s.last nows * props.speed * 0.8 ∧
      (run env props s (frameEvents nows)).last = (nows.getLast?).getD s.last := by
  intro nows
  induction nows with
  | nil => intro s _; simp [run, frameEvents, clampedSum]
  | cons now rest ih =>
    intro s hs
    have hstep : run env props s (frameEvents (now :: rest)) =
        run env props (render env props now { s with rafCallbacks := [] }) (frameEvents rest) := by
      simp [run, frameEvents, step, runAnimationFrame_single env props now s hs]
    have hlen : (render env props now { s with rafCallbacks := [] }).rafCallbacks.length = 1 := by
      simp [render_rafCallbacks]
    obtain ⟨h1, h2⟩ := ih _ hlen
    rw [hstep, h1, h2, render_t, render_last]
    constructor
    · simp only [clampedSum]; ring
    · cases rest with
      | nil => simp
      | cons b r =>
        rcases hl : (b :: r).getLast? with _ | v
        · simp at hl
        · simp [List.getLast?_cons_cons, hl]

/-- C4 (amended): the delta used by a frame is dt = min(0.05, (now - last) / 1000), the
timestamps being in milliseconds and the clamp in seconds; a frame that comes 10 seconds
(10000 timestamp units) after the previous one advances the phase by 0.05 * speed * 0.8,
and one that comes 10 timestamp units after it by 0.01 * speed * 0.8. -/
theorem C4_frame_delta_clamp (env : Env α) (props : Props α) (now : α) (s : State α) :
    (render env props now s).t = s.t + min 0.05 ((now - s.last) / 1000) * props.speed * 0.8 ∧
    (render env props (s.last + 10000) s).t = s.t + 0.05 * props.speed * 0.8 ∧
    (render env props (s.last + 10) s).t = s.t + 0.01 * props.speed * 0.8 := by
  refine ⟨rfl, ?_, ?_⟩
  · rw [render_t]
    have h : min (0.05 : α) ((s.last + 10000 - s.last) / 1000) = 0.05 := by
      rw [min_eq_left]; norm_num
    rw [h]
  · rw [render_t]
    have h : min (0.05 : α) ((s.last + 10 - s.last) / 1000) = 0.01 := by
      rw [min_eq_right] <;> norm_num
    rw [h]

/-- C4 (counterexample): on the default props, a first frame whose timestamp is 10 units
after the one stored at mount advances the phase by 0.008, not by 0.05 * speed * 0.8. -/
theorem C4_counterexample :
    (render exampleHost defaultProps 10 (mount exampleHost 0 0 0)).t = 1 / 125 ∧
    (render exampleHost defaultProps 10 (mount exampleHost 0 0 0)).t ≠
      (mount exampleHost 0 0 0).t + 0.05 * (defaultProps : Props ℚ).speed * 0.8 := by
  have h : (render exampleHost defaultProps 10 (mount exampleHost 0 0 0)).t = 1 / 125 := by
    rw [render_t]
    have h1 : (mount exampleHost 0 0 0).t = 0 := rfl
    have h2 : (mount exampleHost 0 0 0).last = 0 := rfl
    have h3 : (defaultProps : Props ℚ).speed = 1 := rfl
    rw [h1, h2, h3, min_eq_right] <;> norm_num
  refine ⟨h, ?_⟩
  rw [h]
  have h1 : (mount exampleHost 0 0 0).t = 0 := rfl
  have h3 : (defaultProps : Props ℚ).speed = 1 := rfl
  rw [h1, h3]
  norm_num

/-- C5 (amended): starting from phase 0 at mount, after the render calls for any sequence
of frame timestamps the phase is (sum of min(0.05, delta_i / 1000)) * speed * 0.8, where
delta_i is the difference between the timestamp of frame i and the previously stored
timestamp; and after each call the stored last timestamp is that call's timestamp. -/
theorem C5_phase_accumulation [FloorRing α] (env : Env α) (props : Props α) (clock : α) (rafId timerId : ℕ)
    (nows : List α) :
    (run env props (mount env clock rafId timerId) (frameEvents nows)).t =
      clampedSum clock nows * props.speed * 0.8 ∧
    (run env props (mount env clock rafId timerId) (frameEvents nows)).last =
      (nows.getLast?).getD clock ∧
    ∀ (s : State α) (now : α), (render env props now s).last = now := by
  obtain ⟨h1, h2⟩ := run_frames_phase env props nows (mount env clock rafId timerId)
    (by simp [mount_rafCallbacks])
  refine ⟨?_, ?_, fun _ _ => rfl⟩
  · rw [h1]
    have : (mount env clock rafId timerId).t = 0 := rfl
    have h0 : (mount env clock rafId timerId).last = clock := rfl
    rw [this, h0, zero_add]
  · rw [h2]
    rfl

/-- C5 (counterexample): mounted at time 0 with the default props, one frame at timestamp
0.04 (a gap below 0.05) leaves the phase at 0.000032, not at min(0.05, 0.04) * 1 * 0.8. -/
theorem C5_counterexample :
    (run exampleHost defaultProps (mount exampleHost 0 0 0) (frameEvents [0.04])).t = 4 / 125000 ∧
    (run exampleHost defaultProps (mount exampleHost 0 0 0) (frameEvents [0.04])).t ≠
      (min 0.05 (0.04 - 0) + 0) * (defaultProps : Props ℚ).speed * 0.8 := by
  have h : (run exampleHost defaultProps (mount exampleHost 0 0 0) (frameEvents [0.04])).t
      = 4 / 125000 := by
    rw [(run_frames_phase exampleHost defaultProps [0.04] (mount exampleHost 0 0 0)
      (by simp [mount_rafCallbacks])).1]
    have h1 : (mount exampleHost 0 0 0).t = 0 := rfl
    have h2 : (mount exampleHost 0 0 0).last = 0 := rfl
    have h3 : (defaultProps : Props ℚ).speed = 1 := rfl
    rw [h1, h2, h3]
    simp only [clampedSum]
    rw [min_eq_right] <;> norm_num
  refine ⟨h, ?_⟩
  rw [h]
  have h3 : (defaultProps : Props ℚ).speed = 1 := rfl
  rw [h3, min_eq_right] <;> norm_num

/-- C6 (amended): for every positive speed, a render call whose timestamp is not below
the stored last timestamp leaves the phase greater than or equal to its value before the
call. -/
theorem C6_phase_monotone (env : Env α) (props : Props α) (now : α) (s : State α)
    (hspeed : 0 < props.speed) (hnow : s.last ≤ now) :
    s.t ≤ (render env props now s).t := by
  rw [render_t]
  have hdt : (0 : α) ≤ min 0.05 ((now - s.last) / 1000) :=
    le_min (by norm_num) (div_nonneg (sub_nonneg.mpr hnow) (by norm_num))
  have h8 : (0 : α) ≤ 0.8 := by norm_num
  have := mul_nonneg (mul_nonneg hdt hspeed.le) h8
  linarith

theorem C6_phase_monotone_witness :
    (mount exampleHost 0 0 0).t ≤ (render exampleHost defaultProps 16 (mount exampleHost 0 0 0)).t :=
  C6_phase_monotone exampleHost defaultProps 16 (mount exampleHost 0 0 0)
    (by simp [defaultProps]) (by simp [mount, requestFrame, resize])

/-- C6 (counterexample): mounted at time 1000 (the value of performance.now() stored in
last), a first frame with timestamp 990 moves the phase from 0 down to -0.008. -/
theorem C6_counterexample :
    (render exampleHost defaultProps 990 (mount exampleHost 1000 0 0)).t = -(1 / 125) ∧
    ¬ ((mount exampleHost 1000 0 0).t ≤
      (render exampleHost defaultProps 990 (mount exampleHost 1000 0 0)).t) := by
  have h : (render exampleHost defaultProps 990 (mount exampleHost 1000 0 0)).t = -(1 / 125) := by
    rw [render_t]
    have h1 : (mount exampleHost 1000 0 0).t = 0 := rfl
    have h2 : (mount exampleHost 1000 0 0).last = 1000 := rfl
    have h3 : (defaultProps : Props ℚ).speed = 1 := rfl
    rw [h1, h2, h3, min_eq_right] <;> norm_num
  refine ⟨h, ?_⟩
  rw [h]
  have h1 : (mount exampleHost 1000 0 0).t = 0 := rfl
  rw [h1]
  norm_num

end PhaseProofs

section ResizeProofs

variable {α : Type} [LinearOrderedField α] [FloorRing α]

theorem resize_canvas_width (env : Env α) (clock : α) (s : State α) :
    (resize env clock s).surface.canvas.width =
      max 1 ⌊env.innerWidth clock * getDPR env clock⌋ :=
  rfl

theorem resize_canvas_height (env : Env α) (clock : α) (s : State α) :
    (resize env clock s).surface.canvas.height =
      max 1 ⌊env.innerHeight clock * getDPR env clock⌋ :=
  rfl

/-- C7 (amended): for every logical width and height >= 0 and every device pixel ratio
dpr > 0, resize sets the backing-store width to max(1, floor(width * dpr)) and the
backing-store height to max(1, floor(height * dpr)), sets the CSS size to the logical width
and height, and sets the drawing transform to a uniform scale by dpr. -/
theorem C7_backing_store_size (env : Env α) (clock : α) (s : State α) (dpr : α)
    (_hw : 0 ≤ env.innerWidth clock) (_hh : 0 ≤ env.innerHeight clock)
    (hd : env.devicePixelRatio clock = some dpr) (hdpr : 0 < dpr) :
    (resize env clock s).surface.canvas.width = max 1 ⌊env.innerWidth clock * dpr⌋ ∧
    (resize env clock s).surface.canvas.height = max 1 ⌊env.innerHeight clock * dpr⌋ ∧
    (resize env clock s).surface.canvas.styleWidth = CssLength.px (env.innerWidth clock) ∧
    (resize env clock s).surface.canvas.styleHeight = CssLength.px (env.innerHeight clock) ∧
    (resize env clock s).surface.ctx.cur.transform =
      { a := dpr, b := 0, c := 0, d := dpr, e := 0, f := 0 } ∧
    (resize env clock s).width = env.innerWidth clock ∧
    (resize env clock s).height = env.innerHeight clock := by
  have hg : getDPR env clock = dpr := by
    simp [getDPR, hd, hdpr.ne']
  refine ⟨?_, ?_, rfl, rfl, ?_, rfl, rfl⟩
  · rw [resize_canvas_width, hg]
  · rw [resize_canvas_height, hg]
  · simp [resize, Surface.onCtx, Context.setTransform, hg]

theorem C7_backing_store_size_witness :
    (resize exampleHost 0 (mount exampleHost 0 0 0)).surface.canvas.width = 1501 ∧
    (resize exampleHost 0 (mount exampleHost 0 0 0)).surface.canvas.height = 1201 := by
  have h := C7_backing_store_size exampleHost 0 (mount exampleHost 0 0 0) (3 / 2)
    (by norm_num [exampleHost]) (by norm_num [exampleHost]) rfl (by norm_num)
  refine ⟨h.1.trans ?_, h.2.1.trans ?_⟩
  · have hf : ⌊exampleHost.innerWidth 0 * (3 / 2)⌋ = 1501 := by
      rw [Int.floor_eq_iff]; norm_num [exampleHost]
    rw [hf]; rfl
  · have hf : ⌊exampleHost.innerHeight 0 * (3 / 2)⌋ = 1201 := by
      rw [Int.floor_eq_iff]; norm_num [exampleHost]
    rw [hf]; rfl

/-- C7 (counterexample): at a viewport width of 1001 and a pixel ratio of 1.5 resize sets
the backing-store width to 1501, while max(1, ceil(1001 * 1.5)) is 1502. -/
theorem C7_counterexample :
    (resize exampleHost 0 (mount exampleHost 0 0 0)).surface.canvas.width = 1501 ∧
    max 1 ⌈exampleHost.innerWidth 0 * (3 / 2)⌉ = 1502 ∧
    (resize exampleHost 0 (mount exampleHost 0 0 0)).surface.canvas.width ≠
      max 1 ⌈exampleHost.innerWidth 0 * (3 / 2)⌉ := by
  have hg : getDPR exampleHost 0 = 3 / 2 := by
    simp [getDPR, exampleHost]
  have hf : ⌊exampleHost.innerWidth 0 * (3 / 2)⌋ = 1501 := by
    rw [Int.floor_eq_iff]; norm_num [exampleHost]
  have hc : ⌈exampleHost.innerWidth 0 * (3 / 2)⌉ = 1502 := by
    rw [Int.ceil_eq_iff]; norm_num [exampleHost]
  have hw : (resize exampleHost 0 (mount exampleHost 0 0 0)).surface.canvas.width = 1501 := by
    rw [resize_canvas_width, hg, hf]; rfl
  refine ⟨hw, ?_, ?_⟩
  · rw [hc]; rfl
  · rw [hw, hc]; decide

/-- C8: whatever the viewport width and height (0 included) and whatever the device pixel
ratio, resize returns with both backing-store dimensions at least 1; a missing or zero
ratio is treated as 1. -/
theorem C8_degenerate_size (env : Env α) (clock : α) (s : State α) :
    1 ≤ (resize env clock s).surface.canvas.width ∧
    1 ≤ (resize env clock s).surface.canvas.height ∧
    ((env.devicePixelRatio clock = none ∨ env.devicePixelRatio clock = some 0) →
      getDPR env clock = 1 ∧
      (resize env clock s).surface.ctx.cur.transform =
        { a := 1, b := 0, c := 0, d := 1, e := 0, f := 0 }) := by
  refine ⟨?_, ?_, ?_⟩
  · rw [resize_canvas_width]; exact le_max_left _ _
  · rw [resize_canvas_height]; exact le_max_left _ _
  · intro h
    have hg : getDPR env clock = 1 := by
      rcases h with h | h <;> simp [getDPR, h]
    refine ⟨hg, ?_⟩
    simp [resize, Surface.onCtx, Context.setTransform, hg]

theorem C8_degenerate_size_witness :
    (resize degenerateHost 0 (mount exampleHost 0 0 0)).surface.canvas.width = 1 ∧
    getDPR degenerateHost 0 = 1 := by
  have h := C8_degenerate_size degenerateHost 0 (mount exampleHost 0 0 0)
  refine ⟨?_, (h.2.2 (Or.inl rfl)).1⟩
  rw [resize_canvas_width, (h.2.2 (Or.inl rfl)).1]
  simp [degenerateHost]

end ResizeProofs

section ClearProofs

variable {α : Type} [LinearOrderedField α]

theorem overlap_full (w : α) (i : ℤ) (h0 : 0 ≤ i) (hw : (i : α) + 1 ≤ w) :
    overlap (1 * 0 + 0) (1 * (0 + w) + 0) i = 1 := by
  have hi : (0 : α) ≤ (i : α) := by exact_mod_cast h0
  have hw0 : (0 : α) ≤ w := by linarith
  simp only [overlap, one_mul, zero_add, add_zero]
  rw [max_eq_right hw0, min_eq_left hw0, min_eq_right hw, max_eq_right hi]
  simp

theorem sourcePixel_black_one : sourcePixel (Rgba.black : Rgba α) 1 = Pixel.opaqueBlack := by
  simp [sourcePixel, Rgba.black, Pixel.opaqueBlack]

/-- The clear step leaves the context as it found it. -/
theorem renderClear_ctx (env : Env α) (sf : Surface α) : (renderClear env sf).ctx = sf.ctx := by
  simp [renderClear, Surface.onCtx, Surface.fillRect, Context.save, Context.restore,
    Context.setTransform, Context.setFillStyle]

theorem renderClear_canvas_width (env : Env α) (sf : Surface α) :
    (renderClear env sf).canvas.width = sf.canvas.width := by
  simp [renderClear, Surface.onCtx, Surface.fillRect, Canvas.paint]

theorem renderClear_canvas_height (env : Env α) (sf : Surface α) :
    (renderClear env sf).canvas.height = sf.canvas.height := by
  simp [renderClear, Surface.onCtx, Surface.fillRect, Canvas.paint]

/-- The clear step composites opaque black onto every pixel of the backing store with the
blend mode that is current when render is entered. -/
theorem renderClear_pixel (env : Env α) (sf : Surface α) (i j : ℤ)
    (hblur : sf.ctx.cur.filterBlur = 0)
    (hi0 : 0 ≤ i) (hi : i < sf.canvas.width) (hj0 : 0 ≤ j) (hj : j < sf.canvas.height) :
    (renderClear env sf).canvas.pixels i j =
      blend sf.ctx.cur.globalCompositeOperation Pixel.opaqueBlack (sf.canvas.pixels i j) := by
  have hiw : ((i : α) + 1) ≤ (sf.canvas.width : α) := by exact_mod_cast hi
  have hjh : ((j : α) + 1) ≤ (sf.canvas.height : α) := by exact_mod_cast hj
  have hcov : rectCoverage (Transform.mk 1 0 0 1 0 0) 0 0 (sf.canvas.width : α)
      (sf.canvas.height : α) i j = 1 := by
    simp only [rectCoverage]
    rw [overlap_full _ i hi0 hiw, overlap_full _ j hj0 hjh, one_mul]
  simp only [renderClear, Surface.onCtx, Surface.fillRect, Canvas.paint, Context.save,
    Context.restore, Context.setTransform, Context.setFillStyle]
  simp only [hi0, hi, hj0, hj, and_self, if_true, hblur, hcov, sourcePixel_black_one]

/-- In the default blend mode the clear step makes a pixel opaque black. -/
theorem blend_sourceOver_opaqueBlack (d : Pixel α) :
    blend CompositeOp.sourceOver Pixel.opaqueBlack d = Pixel.opaqueBlack := by
  simp [blend, Pixel.opaqueBlack]

/-- In the lighter blend mode the clear step keeps the colour of a pixel. -/
theorem blend_lighter_opaqueBlack (d : Pixel α) :
    blend CompositeOp.lighter Pixel.opaqueBlack d =
      { r := min 1 d.r, g := min 1 d.g, b := min 1 d.b, a := min 1 (1 + d.a) } := by
  simp [blend, Pixel.opaqueBlack]

theorem lineTo_cur (x y : α) (c : Context α) : (Context.lineTo x y c).cur = c.cur := by
  unfold Context.lineTo
  split <;> rfl

theorem lineTo_stack (x y : α) (c : Context α) : (Context.lineTo x y c).stack = c.stack := by
  unfold Context.lineTo
  split <;> rfl

/-- The loop of lineTo calls changes only the current path. -/
theorem lineTo_fold (pts : List (Point α)) : ∀ sf : Surface α,
    (pts.foldl (fun sf p => sf.onCtx (Context.lineTo p.x p.y)) sf).canvas = sf.canvas ∧
    (pts.foldl (fun sf p => sf.onCtx (Context.lineTo p.x p.y)) sf).ctx.cur = sf.ctx.cur ∧
    (pts.foldl (fun sf p => sf.onCtx (Context.lineTo p.x p.y)) sf).ctx.stack = sf.ctx.stack := by
  induction pts with
  | nil => intro sf; simp
  | cons p rest ih =>
    intro sf
    simp only [List.foldl_cons]
    obtain ⟨h1, h2, h3⟩ := ih (sf.onCtx (Context.lineTo p.x p.y))
    refine ⟨h1.trans rfl, h2.trans ?_, h3.trans ?_⟩
    · simp [Surface.onCtx, lineTo_cur]
    · simp [Surface.onCtx, lineTo_stack]

/-- What drawWave does: on a surface pre that differs from the given one in the context
only (the saved state on the stack, the stroke settings, the path), it strokes and then
restores. -/
theorem drawWave_spec (env : Env α) (pts : List (Point α)) (color : ℕ × ℕ × ℕ)
    (blur lineWidth alpha : α) (sf : Surface α) :
    ∃ pre : Surface α, pre.canvas = sf.canvas ∧
      pre.ctx.cur = { sf.ctx.cur with
        filterBlur := blur
        strokeStyle := { r := color.1, g := color.2.1, b := color.2.2, alpha := alpha }
        lineWidth := lineWidth
        lineCap := LineCap.round
        lineJoin := LineJoin.round } ∧
      pre.ctx.stack = sf.ctx.cur :: sf.ctx.stack ∧
      drawWave env pts color blur lineWidth alpha sf = (pre.stroke env).onCtx Context.restore := by
  refine ⟨_, ?_, ?_, ?_, rfl⟩
  · rw [(lineTo_fold _ _).1]
    cases pts <;> rfl
  · rw [(lineTo_fold _ _).2.1]
    cases pts <;> rfl
  · rw [(lineTo_fold _ _).2.2]
    cases pts <;> rfl

theorem drawWave_ctx_cur (env : Env α) (pts : List (Point α)) (color : ℕ × ℕ × ℕ)
    (blur lineWidth alpha : α) (sf : Surface α) :
    (drawWave env pts color blur lineWidth alpha sf).ctx.cur = sf.ctx.cur := by
  obtain ⟨pre, _, _, h3, h4⟩ := drawWave_spec env pts color blur lineWidth alpha sf
  rw [h4]
  simp [Surface.onCtx, Surface.stroke, Context.restore, h3]

theorem drawWave_canvas (env : Env α) (pts : List (Point α)) (color : ℕ × ℕ × ℕ)
    (blur lineWidth alpha : α) (sf : Surface α) :
    ∃ coverage : ℤ → ℤ → α,
      (drawWave env pts color blur lineWidth alpha sf).canvas =
        sf.canvas.paint sf.ctx.cur.globalCompositeOperation
          { r := color.1, g := color.2.1, b := color.2.2, alpha := alpha } coverage ∧
      ((∀ d path i j, env.strokeCoverage d path i j = 1) → coverage = fun _ _ => 1) := by
  obtain ⟨pre, h1, h2, _, h4⟩ := drawWave_spec env pts color blur lineWidth alpha sf
  refine ⟨env.strokeCoverage pre.ctx.cur pre.ctx.path, ?_, ?_⟩
  · rw [h4]
    simp [Surface.onCtx, Surface.stroke, h1, h2]
  · intro h
    funext i j
    exact h _ _ i j

/-- The four glow layers of one wave change neither the drawing state nor the size of the
backing store. -/
theorem renderWave_ctx_cur (env : Env α) (props : Props α) (t width height : α)
    (sf : Surface α) (w : WaveSpec α) :
    (renderWave env props t width height sf w).ctx.cur = sf.ctx.cur := by
  simp [renderWave, drawWave_ctx_cur]

theorem paint_width (op : CompositeOp) (c : Rgba α) (cov : ℤ → ℤ → α) (cv : Canvas α) :
    (cv.paint op c cov).width = cv.width :=
  rfl

theorem paint_height (op : CompositeOp) (c : Rgba α) (cov : ℤ → ℤ → α) (cv : Canvas α) :
    (cv.paint op c cov).height = cv.height :=
  rfl

theorem drawWave_canvas_size (env : Env α) (pts : List (Point α)) (color : ℕ × ℕ × ℕ)
    (blur lineWidth alpha : α) (sf : Surface α) :
    (drawWave env pts color blur lineWidth alpha sf).canvas.width = sf.canvas.width ∧
    (drawWave env pts color blur lineWidth alpha sf).canvas.height = sf.canvas.height := by
  obtain ⟨cov, h, _⟩ := drawWave_canvas env pts color blur lineWidth alpha sf
  rw [h]
  exact ⟨rfl, rfl⟩

theorem renderWave_canvas_size (env : Env α) (props : Props α) (t width height : α)
    (sf : Surface α) (w : WaveSpec α) :
    (renderWave env props t width height sf w).canvas.width = sf.canvas.width ∧
    (renderWave env props t width height sf w).canvas.height = sf.canvas.height := by
  simp [renderWave, drawWave_canvas_size]

theorem waves_fold (env : Env α) (props : Props α) (t width height : α)
    (ws : List (WaveSpec α)) : ∀ sf : Surface α,
    (ws.foldl (renderWave env props t width height) sf).ctx.cur = sf.ctx.cur ∧
    (ws.foldl (renderWave env props t width height) sf).canvas.width = sf.canvas.width ∧
    (ws.foldl (renderWave env props t width height) sf).canvas.height = sf.canvas.height := by
  induction ws with
  | nil => intro sf; simp
  | cons w rest ih =>
    intro sf
    simp only [List.foldl_cons]
    obtain ⟨h1, h2, h3⟩ := ih (renderWave env props t width height sf w)
    exact ⟨h1.trans (renderWave_ctx_cur _ _ _ _ _ _ _),
      h2.trans (renderWave_canvas_size _ _ _ _ _ _ _).1,
      h3.trans (renderWave_canvas_size _ _ _ _ _ _ _).2⟩

/-- After render the blend mode of the context is lighter, the filter is what it was, and
the backing store has the size it had. -/
theorem render_surface (env : Env α) (props : Props α) (now : α) (s : State α) :
    (render env props now s).surface.ctx.cur.globalCompositeOperation = CompositeOp.lighter ∧
    (render env props now s).surface.ctx.cur.filterBlur = s.surface.ctx.cur.filterBlur ∧
    (render env props now s).surface.canvas.width = s.surface.canvas.width ∧
    (render env props now s).surface.canvas.height = s.surface.canvas.height := by
  have hw := waves_fold env props (renderTick props now s).t s.width s.height props.waves
    ((renderClear env s.surface).onCtx
      (Context.setGlobalCompositeOperation CompositeOp.lighter))
  have hs : (render env props now s).surface =
      props.waves.foldl (renderWave env props (renderTick props now s).t s.width s.height)
        ((renderClear env s.surface).onCtx
          (Context.setGlobalCompositeOperation CompositeOp.lighter)) := rfl
  rw [hs, hw.1, hw.2.1, hw.2.2]
  simp [Surface.onCtx, Context.setGlobalCompositeOperation, renderClear_ctx,
    renderClear_canvas_width, renderClear_canvas_height]

/-- The clear step of a frame that follows another frame (no resize in between) adds black
to what the backing store holds: every pixel keeps its colour. -/
theorem renderClear_after_render (env : Env α) (props : Props α) (now : α) (s : State α)
    (i j : ℤ) (hblur : s.surface.ctx.cur.filterBlur = 0)
    (hi0 : 0 ≤ i) (hi : i < s.surface.canvas.width)
    (hj0 : 0 ≤ j) (hj : j < s.surface.canvas.height) :
    (renderClear env (render env props now s).surface).canvas.pixels i j =
      { r := min 1 ((render env props now s).surface.canvas.pixels i j).r
        g := min 1 ((render env props now s).surface.canvas.pixels i j).g
        b := min 1 ((render env props now s).surface.canvas.pixels i j).b
        a := min 1 (1 + ((render env props now s).surface.canvas.pixels i j).a) } := by
  obtain ⟨hg, hb, hw, hh⟩ := render_surface env props now s
  rw [renderClear_pixel env _ i j (hb.trans hblur) hi0 (hw ▸ hi) hj0 (hh ▸ hj), hg,
    blend_lighter_opaqueBlack]

theorem paint_pixel_full (op : CompositeOp) (c : Rgba α) (cv : Canvas α) (i j : ℤ)
    (hi0 : 0 ≤ i) (hi : i < cv.width) (hj0 : 0 ≤ j) (hj : j < cv.height) :
    (cv.paint op c (fun _ _ => 1)).pixels i j = blend op (sourcePixel c 1) (cv.pixels i j) := by
  simp [Canvas.paint, hi0, hi, hj0, hj]

theorem drawWave_pixel_full (env : Env α) (hfull : ∀ d path i j, env.strokeCoverage d path i j = 1)
    (pts : List (Point α)) (color : ℕ × ℕ × ℕ) (blur lineWidth alpha : α) (sf : Surface α)
    (i j : ℤ) (hi0 : 0 ≤ i) (hi : i < sf.canvas.width) (hj0 : 0 ≤ j) (hj : j < sf.canvas.height) :
    (drawWave env pts color blur lineWidth alpha sf).canvas.pixels i j =
      blend sf.ctx.cur.globalCompositeOperation
        (sourcePixel { r := color.1, g := color.2.1, b := color.2.2, alpha := alpha } 1)
        (sf.canvas.pixels i j) := by
  obtain ⟨cov, h, hc⟩ := drawWave_canvas env pts color blur lineWidth alpha sf
  rw [h, hc hfull, paint_pixel_full _ _ _ i j hi0 hi hj0 hj]

theorem renderWave_pixel_full (env : Env α) (hfull : ∀ d path i j, env.strokeCoverage d path i j = 1)
    (props : Props α) (t width height : α) (sf : Surface α) (w : WaveSpec α)
    (hg : sf.ctx.cur.globalCompositeOperation = CompositeOp.lighter)
    (i j : ℤ) (hi0 : 0 ≤ i) (hi : i < sf.canvas.width) (hj0 : 0 ≤ j) (hj : j < sf.canvas.height) :
    (renderWave env props t width height sf w).canvas.pixels i j =
      glowPixel w.color (sf.canvas.pixels i j) := by
  simp only [renderWave, glowPixel]
  rw [drawWave_pixel_full env hfull, drawWave_pixel_full env hfull,
    drawWave_pixel_full env hfull, drawWave_pixel_full env hfull]
  · simp only [drawWave_ctx_cur, hg]
  all_goals simp only [drawWave_canvas_size, hi0, hi, hj0, hj]

theorem waves_fold_pixel_full (env : Env α)
    (hfull : ∀ d path i j, env.strokeCoverage d path i j = 1)
    (props : Props α) (t width height : α) (i j : ℤ) (hi0 : 0 ≤ i) (hj0 : 0 ≤ j)
    (ws : List (WaveSpec α)) : ∀ sf : Surface α,
    sf.ctx.cur.globalCompositeOperation = CompositeOp.lighter →
    i < sf.canvas.width → j < sf.canvas.height →
    (ws.foldl (renderWave env props t width height) sf).canvas.pixels i j =
      ws.foldl (fun p w => glowPixel w.color p) (sf.canvas.pixels i j) := by
  induction ws with
  | nil => intro sf _ _ _; rfl
  | cons w rest ih =>
    intro sf hg hi hj
    simp only [List.foldl_cons]
    have hg1 : (renderWave env props t width height sf w).ctx.cur.globalCompositeOperation
        = CompositeOp.lighter := by
      rw [renderWave_ctx_cur]; exact hg
    have hi1 : i < (renderWave env props t width height sf w).canvas.width := by
      rw [(renderWave_canvas_size env props t width height sf w).1]; exact hi
    have hj1 : j < (renderWave env props t width height sf w).canvas.height := by
      rw [(renderWave_canvas_size env props t width height sf w).2]; exact hj
    rw [ih (renderWave env props t width height sf w) hg1 hi1 hj1,
      renderWave_pixel_full env hfull props t width height sf w hg i j hi0 hi hj0 hj]

/-- On a host whose strokes cover every pixel fully, a frame leaves in each pixel the
glow layers of the waves added on top of what the clear step left. -/
theorem render_pixel_full (env : Env α) (hfull : ∀ d path i j, env.strokeCoverage d path i j = 1)
    (props : Props α) (now : α) (s : State α) (i j : ℤ)
    (hblur : s.surface.ctx.cur.filterBlur = 0)
    (hi0 : 0 ≤ i) (hi : i < s.surface.canvas.width)
    (hj0 : 0 ≤ j) (hj : j < s.surface.canvas.height) :
    (render env props now s).surface.canvas.pixels i j =
      props.waves.foldl (fun p w => glowPixel w.color p)
        (blend s.surface.ctx.cur.globalCompositeOperation Pixel.opaqueBlack
          (s.surface.canvas.pixels i j)) := by
  have hs : (render env props now s).surface =
      props.waves.foldl (renderWave env props (renderTick props now s).t s.width s.height)
        ((renderClear env s.surface).onCtx
          (Context.setGlobalCompositeOperation CompositeOp.lighter)) := rfl
  rw [hs, waves_fold_pixel_full env hfull props _ _ _ i j hi0 hj0 props.waves _ rfl
    (by simpa [Surface.onCtx, renderClear_canvas_width] using hi)
    (by simpa [Surface.onCtx, renderClear_canvas_height] using hj)]
  have hp : ((renderClear env s.surface).onCtx
      (Context.setGlobalCompositeOperation CompositeOp.lighter)).canvas.pixels i j =
      (renderClear env s.surface).canvas.pixels i j := rfl
  rw [hp, renderClear_pixel env _ i j hblur hi0 hi hj0 hj]

/-- The clear step of the first frame after a resize (the context has just been reset)
makes every pixel of the backing store opaque black. -/
theorem renderClear_after_resize [FloorRing α] (env : Env α) (clock : α) (s : State α) (i j : ℤ)
    (hi0 : 0 ≤ i) (hi : i < (resize env clock s).surface.canvas.width)
    (hj0 : 0 ≤ j) (hj : j < (resize env clock s).surface.canvas.height) :
    (renderClear env (resize env clock s).surface).canvas.pixels i j = Pixel.opaqueBlack := by
  have hblur : (resize env clock s).surface.ctx.cur.filterBlur = 0 := rfl
  have hop : (resize env clock s).surface.ctx.cur.globalCompositeOperation =
      CompositeOp.sourceOver := rfl
  rw [renderClear_pixel env _ i j hblur hi0 hi hj0 hj, hop, blend_sourceOver_opaqueBlack]

theorem render_fold_filterBlur (env : Env α) (props : Props α) (now : α) (l : List ℕ) :
    ∀ s : State α,
      (l.foldl (fun s _ => render env props now s) s).surface.ctx.cur.filterBlur =
        s.surface.ctx.cur.filterBlur := by
  induction l with
  | nil => intro s; rfl
  | cons a rest ih =>
    intro s
    simp only [List.foldl_cons]
    rw [ih, (render_surface env props now s).2.1]

theorem resize_fold_filterBlur [FloorRing α] (env : Env α) (clock : α) (l : List (ℕ × α)) :
    ∀ s : State α, s.surface.ctx.cur.filterBlur = 0 →
      (l.foldl (fun s _ => resize env clock s) s).surface.ctx.cur.filterBlur = 0 := by
  induction l with
  | nil => intro s h; exact h
  | cons a rest ih =>
    intro s _
    simp only [List.foldl_cons]
    exact ih _ rfl

theorem handleResize_surface [FloorRing α] (clock : α) (s : State α) :
    (handleResize clock s).surface = s.surface := by
  by_cases h : truthy s.resizeTimeout = true <;> simp [handleResize, h, clearTimeout]

/-- No filter is set on the context in any state that a mounted instance reaches. -/
theorem run_filterBlur [FloorRing α] (env : Env α) (props : Props α) (es : List (Event α)) :
    ∀ s : State α, s.surface.ctx.cur.filterBlur = 0 →
      (run env props s es).surface.ctx.cur.filterBlur = 0 := by
  induction es with
  | nil => intro s h; exact h
  | cons e rest ih =>
    intro s h
    refine ih _ ?_
    cases e with
    | animationFrame now =>
      simp only [step, runAnimationFrame]
      rw [render_fold_filterBlur]
      exact h
    | resizeNotification clock =>
      simp only [step, dispatchResize]
      split
      · rw [handleResize_surface]; exact h
      · exact h
    | timersDue clock =>
      simp only [step, runTimers]
      exact resize_fold_filterBlur env clock _ _ h

/-- In every state that a mounted instance reaches, the clear step that follows a frame
leaves each pixel of the backing store with the colour the frame gave it. -/
theorem renderClear_after_frame_reachable [FloorRing α] (env : Env α) (props : Props α)
    (clock : α) (rafId timerId : ℕ) (es : List (Event α)) (now : α) (i j : ℤ)
    (hi0 : 0 ≤ i)
    (hi : i < (run env props (mount env clock rafId timerId) es).surface.canvas.width)
    (hj0 : 0 ≤ j)
    (hj : j < (run env props (mount env clock rafId timerId) es).surface.canvas.height) :
    (renderClear env (render env props now
        (run env props (mount env clock rafId timerId) es)).surface).canvas.pixels i j =
      { r := min 1 ((render env props now
            (run env props (mount env clock rafId timerId) es)).surface.canvas.pixels i j).r
        g := min 1 ((render env props now
            (run env props (mount env clock rafId timerId) es)).surface.canvas.pixels i j).g
        b := min 1 ((render env props now
            (run env props (mount env clock rafId timerId) es)).surface.canvas.pixels i j).b
        a := min 1 (1 + ((render env props now
            (run env props (mount env clock rafId timerId) es)).surface.canvas.pixels i j).a) } :=
  renderClear_after_render env props now _ i j
    (run_filterBlur env props es _ rfl) hi0 hi hj0 hj

end ClearProofs

section ClearEvaluation

theorem exampleHost_full (d : DrawState ℚ) (path : List (List (Point ℚ))) (i j : ℤ) :
    exampleHost.strokeCoverage d path i j = 1 :=
  rfl

theorem mount_example_size :
    (mount exampleHost 0 0 0).surface.canvas.width = 1501 ∧
    (mount exampleHost 0 0 0).surface.canvas.height = 1201 := by
  have hg : getDPR exampleHost 0 = 3 / 2 := by
    simp [getDPR, exampleHost]
  have hw : (mount exampleHost 0 0 0).surface.canvas.width =
      max 1 ⌊exampleHost.innerWidth 0 * getDPR exampleHost 0⌋ := rfl
  have hh : (mount exampleHost 0 0 0).surface.canvas.height =
      max 1 ⌊exampleHost.innerHeight 0 * getDPR exampleHost 0⌋ := rfl
  have hf : ⌊exampleHost.innerWidth 0 * (3 / 2)⌋ = 1501 := by
    rw [Int.floor_eq_iff]; norm_num [exampleHost]
  have hf2 : ⌊exampleHost.innerHeight 0 * (3 / 2)⌋ = 1201 := by
    rw [Int.floor_eq_iff]; norm_num [exampleHost]
  rw [hw, hh, hg, hf, hf2]
  exact ⟨rfl, rfl⟩

/-- The glow layers of the three default waves at full coverage saturate an opaque black
pixel to opaque white. -/
theorem default_glow_on_black :
    (defaultProps : Props ℚ).waves.foldl (fun (p : Pixel ℚ) (w : WaveSpec ℚ) => glowPixel w.color p)
      Pixel.opaqueBlack = { r := 1, g := 1, b := 1, a := 1 } := by
  simp only [defaultProps, DEFAULT_WAVES, List.foldl_cons, List.foldl_nil, glowPixel, blend,
    sourcePixel, Pixel.opaqueBlack]
  norm_num [min_def]

/-- C3 (failing input): mounted on a 1001 by 801 viewport at pixel ratio 1.5 with the
default props, the clear step of the first frame makes pixel (0, 360), where the first wave
starts, opaque black; but after the first frame has drawn its glow layers the blend mode is
still lighter, and the clear step of the second frame leaves that pixel, which lies in the
backing store, as the first frame left it (opaque white on this host) and not black. -/
theorem C3_second_clear_keeps_pixels :
    (renderClear exampleHost (mount exampleHost 0 0 0).surface).canvas.pixels 0 360 =
      Pixel.opaqueBlack ∧
    (run exampleHost defaultProps (mount exampleHost 0 0 0)
      [Event.animationFrame 16]).surface.ctx.cur.globalCompositeOperation = CompositeOp.lighter ∧
    (0 : ℤ) < (run exampleHost defaultProps (mount exampleHost 0 0 0)
      [Event.animationFrame 16]).surface.canvas.width ∧
    (360 : ℤ) < (run exampleHost defaultProps (mount exampleHost 0 0 0)
      [Event.animationFrame 16]).surface.canvas.height ∧
    (renderClear exampleHost (run exampleHost defaultProps (mount exampleHost 0 0 0)
      [Event.animationFrame 16]).surface).canvas.pixels 0 360 = { r := 1, g := 1, b := 1, a := 1 } ∧
    (renderClear exampleHost (run exampleHost defaultProps (mount exampleHost 0 0 0)
      [Event.animationFrame 16]).surface).canvas.pixels 0 360 ≠ Pixel.opaqueBlack := by
  obtain ⟨hw, hh⟩ := mount_example_size
  have hblur : (mount exampleHost 0 0 0).surface.ctx.cur.filterBlur = 0 := rfl
  have hop : (mount exampleHost 0 0 0).surface.ctx.cur.globalCompositeOperation =
      CompositeOp.sourceOver := rfl
  have hrun : (run exampleHost defaultProps (mount exampleHost 0 0 0)
      [Event.animationFrame 16]).surface =
      (render exampleHost defaultProps 16 (mount exampleHost 0 0 0)).surface := by
    simp only [run, List.foldl_cons, List.foldl_nil, step]
    rw [runAnimationFrame_single exampleHost defaultProps 16 (mount exampleHost 0 0 0)
      (by simp [mount_rafCallbacks])]
    rfl
  have hi : (0 : ℤ) < (mount exampleHost 0 0 0).surface.canvas.width := by rw [hw]; decide
  have hj : (360 : ℤ) < (mount exampleHost 0 0 0).surface.canvas.height := by rw [hh]; decide
  obtain ⟨hg1, _, hw1, hh1⟩ := render_surface exampleHost defaultProps 16 (mount exampleHost 0 0 0)
  have hfirst : (renderClear exampleHost (mount exampleHost 0 0 0).surface).canvas.pixels 0 360 =
      Pixel.opaqueBlack := by
    rw [renderClear_pixel exampleHost _ 0 360 hblur (le_refl _) hi (by decide) hj, hop,
      blend_sourceOver_opaqueBlack]
  have hpix : (render exampleHost defaultProps 16
      (mount exampleHost 0 0 0)).surface.canvas.pixels 0 360 = { r := 1, g := 1, b := 1, a := 1 } := by
    rw [render_pixel_full exampleHost exampleHost_full defaultProps 16 (mount exampleHost 0 0 0)
      0 360 hblur (le_refl _) hi (by decide) hj, hop, blend_sourceOver_opaqueBlack,
      default_glow_on_black]
  have hsecond : (renderClear exampleHost (render exampleHost defaultProps 16
      (mount exampleHost 0 0 0)).surface).canvas.pixels 0 360 =
      { r := 1, g := 1, b := 1, a := 1 } := by
    rw [renderClear_after_render exampleHost defaultProps 16 (mount exampleHost 0 0 0) 0 360 hblur
      (le_refl _) hi (by decide) hj, hpix]
    norm_num
  rw [hrun]
  refine ⟨hfirst, hg1, hw1 ▸ hi, hh1 ▸ hj, hsecond, ?_⟩
  rw [hsecond]
  intro h
  have := congrArg Pixel.r h
  simp [Pixel.opaqueBlack] at this

end ClearEvaluation

section HostProofs

variable {α : Type}

theorem run_append [LinearOrderedField α] [FloorRing α] (env : Env α) (props : Props α) (s : State α) (es es' : List (Event α)) :
    run env props s (es ++ es') = run env props (run env props s es) es' := by
  simp [run, List.foldl_append]

theorem run_cons [LinearOrderedField α] [FloorRing α] (env : Env α) (props : Props α) (s : State α) (e : Event α)
    (es : List (Event α)) : run env props s (e :: es) = run env props (step env props s e) es :=
  rfl

/-- A run of resize calls changes none of the host tables and refs. -/
theorem resize_fold [LinearOrderedField α] [FloorRing α] (env : Env α) (clock : α)
    (l : List (ℕ × α)) : ∀ s : State α,
    (l.foldl (fun s _ => resize env clock s) s).timers = s.timers ∧
    (l.foldl (fun s _ => resize env clock s) s).resizeTimeout = s.resizeTimeout ∧
    (l.foldl (fun s _ => resize env clock s) s).rafCallbacks = s.rafCallbacks ∧
    (l.foldl (fun s _ => resize env clock s) s).rafRef = s.rafRef ∧
    (l.foldl (fun s _ => resize env clock s) s).resizeListener = s.resizeListener := by
  induction l with
  | nil => intro s; simp
  | cons tm rest ih =>
    intro s
    simp only [List.foldl_cons]
    obtain ⟨h1, h2, h3, h4, h5⟩ := ih (resize env clock s)
    exact ⟨h1.trans rfl, h2.trans rfl, h3.trans rfl, h4.trans rfl, h5.trans rfl⟩

theorem inv_mount [LinearOrderedField α] [FloorRing α] (env : Env α) (clock : α) (rafId timerId : ℕ) :
    Inv (mount env clock rafId timerId) :=
  ⟨Or.inr ⟨rafId + 1, Nat.succ_ne_zero _, rfl, rfl⟩, Or.inl rfl⟩

theorem inv_runAnimationFrame [LinearOrderedField α] [FloorRing α] (env : Env α) (props : Props α) (now : α) (s : State α)
    (h : Inv s) : Inv (runAnimationFrame env props now s) := by
  obtain ⟨hr, ht⟩ := h
  rcases hr with hr | ⟨a, _, hr, _⟩
  · simp only [runAnimationFrame, hr, List.foldl_nil]
    exact ⟨Or.inl rfl, ht⟩
  · simp only [runAnimationFrame, hr, List.foldl_cons, List.foldl_nil]
    exact ⟨Or.inr ⟨s.rafId + 1, Nat.succ_ne_zero _, rfl, rfl⟩, ht⟩

theorem truthy_some (n : ℕ) (h : n ≠ 0) : truthy (some n) = true := by
  simp [truthy, h]

theorem handleResize_timers [LinearOrderedField α] [FloorRing α] (clock : α) (s : State α) (h : Inv s) :
    (handleResize clock s).timers = [(s.timerId + 1, clock + 120)] ∧
    (handleResize clock s).resizeTimeout = some (s.timerId + 1) ∧
    (handleResize clock s).rafCallbacks = s.rafCallbacks ∧
    (handleResize clock s).rafRef = s.rafRef ∧
    (handleResize clock s).resizeListener = s.resizeListener ∧
    (handleResize clock s).trace = s.trace := by
  obtain ⟨_, ht⟩ := h
  rcases ht with ht | ⟨id, fire, hid, ht, href⟩
  · by_cases htr : truthy s.resizeTimeout = true
    · simp [handleResize, htr, clearTimeout, ht]
    · simp [handleResize, htr, ht]
  · have htr : truthy s.resizeTimeout = true := by rw [href]; exact truthy_some id hid
    have hget : s.resizeTimeout.getD 0 = id := by rw [href]; rfl
    simp only [handleResize, htr, if_true, clearTimeout, hget, ht]
    simp

theorem inv_dispatchResize [LinearOrderedField α] [FloorRing α] (clock : α) (s : State α) (h : Inv s) :
    Inv (dispatchResize clock s) := by
  unfold dispatchResize
  split
  · obtain ⟨h1, h2, h3, h4, _, _⟩ := handleResize_timers clock s h
    refine ⟨?_, Or.inr ⟨s.timerId + 1, clock + 120, Nat.succ_ne_zero _, h1, h2⟩⟩
    rw [h3, h4]
    exact h.1
  · exact h

theorem inv_runTimers [LinearOrderedField α] [FloorRing α] (env : Env α) (clock : α) (s : State α) (h : Inv s) :
    Inv (runTimers env clock s) := by
  obtain ⟨h1, h2, h3, h4, _⟩ := resize_fold env clock (s.timers.filter (fun tm => decide (tm.2 ≤ clock)))
    { s with timers := s.timers.filter (fun tm => !decide (tm.2 ≤ clock)) }
  unfold Inv runTimers
  rw [h1, h2, h3, h4]
  refine ⟨h.1, ?_⟩
  rcases h.2 with ht | ⟨id, fire, hid, ht, href⟩
  · left; simp [ht]
  · by_cases hd : fire ≤ clock
    · left; simp [ht, hd]
    · right; exact ⟨id, fire, hid, by simp [ht, hd], href⟩

theorem inv_step [LinearOrderedField α] [FloorRing α] (env : Env α) (props : Props α) (s : State α) (e : Event α) (h : Inv s) :
    Inv (step env props s e) := by
  cases e with
  | animationFrame now => exact inv_runAnimationFrame env props now s h
  | resizeNotification clock => exact inv_dispatchResize clock s h
  | timersDue clock => exact inv_runTimers env clock s h

/-- The bookkeeping invariant holds in every state that a mounted instance reaches. -/
theorem inv_run [LinearOrderedField α] [FloorRing α] (env : Env α) (props : Props α) (es : List (Event α)) :
    ∀ s : State α, Inv s → Inv (run env props s es) := by
  induction es with
  | nil => intro s h; exact h
  | cons e rest ih => intro s h; exact ih _ (inv_step env props s e h)

theorem cleanup_rafCallbacks (s : State α) :
    (cleanup s).rafCallbacks =
      if truthy s.rafRef then s.rafCallbacks.filter (fun h => h != s.rafRef.getD 0)
      else s.rafCallbacks := by
  by_cases h1 : truthy s.rafRef = true <;> by_cases h2 : truthy s.resizeTimeout = true <;>
    simp [cleanup, h1, h2, cancelAnimationFrame, clearTimeout]

theorem cleanup_timers (s : State α) :
    (cleanup s).timers =
      if truthy s.resizeTimeout then s.timers.filter (fun tm => tm.1 != s.resizeTimeout.getD 0)
      else s.timers := by
  by_cases h1 : truthy s.rafRef = true <;> by_cases h2 : truthy s.resizeTimeout = true <;>
    simp [cleanup, h1, h2, cancelAnimationFrame, clearTimeout]

theorem cleanup_other (s : State α) :
    (cleanup s).resizeListener = false ∧ (cleanup s).trace = s.trace ∧
    (cleanup s).rafRef = s.rafRef ∧ (cleanup s).resizeTimeout = s.resizeTimeout := by
  by_cases h1 : truthy s.rafRef = true <;> by_cases h2 : truthy s.resizeTimeout = true <;>
    simp [cleanup, h1, h2, cancelAnimationFrame, clearTimeout]

theorem cleanup_fields [LinearOrderedField α] (s : State α) (h : Inv s) :
    (cleanup s).rafCallbacks = [] ∧ (cleanup s).timers = [] ∧
    (cleanup s).resizeListener = false ∧ (cleanup s).trace = s.trace := by
  obtain ⟨hr, ht⟩ := h
  refine ⟨?_, ?_, (cleanup_other s).1, (cleanup_other s).2.1⟩
  · rw [cleanup_rafCallbacks]
    rcases hr with hr | ⟨a, ha, hr, href⟩
    · simp [hr]
    · rw [href, truthy_some a ha, hr]
      simp
  · rw [cleanup_timers]
    rcases ht with ht | ⟨id, fire, hid, ht, href⟩
    · simp [ht]
    · rw [href, truthy_some id hid, ht]
      simp

/-- With nothing pending and no listener, no host event changes the state. -/
theorem step_idle [LinearOrderedField α] [FloorRing α] (env : Env α) (props : Props α) (s : State α) (e : Event α)
    (hr : s.rafCallbacks = []) (ht : s.timers = []) (hl : s.resizeListener = false) :
    step env props s e = s := by
  cases s
  simp only at hr ht hl
  subst hr ht hl
  cases e <;> simp [step, runAnimationFrame, dispatchResize, runTimers]

theorem run_idle [LinearOrderedField α] [FloorRing α] (env : Env α) (props : Props α) (es : List (Event α)) (s : State α)
    (hr : s.rafCallbacks = []) (ht : s.timers = []) (hl : s.resizeListener = false) :
    run env props s es = s := by
  induction es with
  | nil => rfl
  | cons e rest ih => rw [run_cons, step_idle env props s e hr ht hl, ih]

/-- Running the cleanup a second time changes nothing, in whatever state it is run. -/
theorem cleanup_idempotent (s : State α) : cleanup (cleanup s) = cleanup s := by
  by_cases h1 : truthy s.rafRef = true <;> by_cases h2 : truthy s.resizeTimeout = true <;>
    simp [cleanup, h1, h2, cancelAnimationFrame, clearTimeout, List.filter_filter]

/-- C10: in every state that a mounted instance reaches, the cleanup leaves no pending
animation-frame callback, no pending timeout and no resize listener, so that no later host
event changes the state or invokes render or resize; and a second cleanup changes
nothing. -/
theorem C10_teardown [LinearOrderedField α] [FloorRing α] (env : Env α) (props : Props α)
    (clock : α) (rafId timerId : ℕ) (es : List (Event α)) :
    (cleanup (run env props (mount env clock rafId timerId) es)).rafCallbacks = [] ∧
    (cleanup (run env props (mount env clock rafId timerId) es)).timers = [] ∧
    (cleanup (run env props (mount env clock rafId timerId) es)).resizeListener = false ∧
    (∀ later : List (Event α),
      run env props (cleanup (run env props (mount env clock rafId timerId) es)) later =
        cleanup (run env props (mount env clock rafId timerId) es)) ∧
    (∀ later : List (Event α),
      (run env props (cleanup (run env props (mount env clock rafId timerId) es)) later).trace =
        (run env props (mount env clock rafId timerId) es).trace) ∧
    cleanup (cleanup (run env props (mount env clock rafId timerId) es)) =
      cleanup (run env props (mount env clock rafId timerId) es) := by
  have hinv := inv_run env props es _ (inv_mount env clock rafId timerId)
  obtain ⟨hr, ht, hl, htr⟩ := cleanup_fields _ hinv
  refine ⟨hr, ht, hl, fun later => run_idle env props later _ hr ht hl, fun later => ?_,
    cleanup_idempotent _⟩
  rw [run_idle env props later _ hr ht hl, htr]

theorem state_eta_timers (s : State α) (l : List (ℕ × α)) (h : s.timers = l) :
    { s with timers := l } = s := by
  cases s
  simp only at h
  subst h
  rfl

theorem runTimers_empty [LinearOrderedField α] [FloorRing α] (env : Env α) (clock : α)
    (s : State α) (h : s.timers = []) : runTimers env clock s = s := by
  simp only [runTimers, h, List.filter_nil, List.foldl_nil]
  exact state_eta_timers s [] h

theorem runTimers_not_due [LinearOrderedField α] [FloorRing α] (env : Env α) (clock : α)
    (s : State α) (id : ℕ) (fire : α) (h : s.timers = [(id, fire)]) (hc : clock < fire) :
    runTimers env clock s = s := by
  have hd : ¬ fire ≤ clock := not_le.mpr hc
  simp only [runTimers, h, List.filter_cons, hd, decide_False, Bool.not_false, if_true,
    List.filter_nil, List.foldl_nil, Bool.false_eq_true, if_false]
  exact state_eta_timers s _ h

theorem runTimers_due [LinearOrderedField α] [FloorRing α] (env : Env α) (clock : α)
    (s : State α) (id : ℕ) (fire : α) (h : s.timers = [(id, fire)]) (hc : fire ≤ clock) :
    runTimers env clock s = resize env clock { s with timers := [] } := by
  simp [runTimers, h, hc]

theorem resizeCalls_append (l l' : List (Call α)) :
    resizeCalls (l ++ l') = resizeCalls l ++ resizeCalls l' := by
  induction l with
  | nil => rfl
  | cons c rest ih => cases c <;> simp [resizeCalls, ih]

/-- Calls of render change neither the timeouts nor the listener, and add no call of
resize to the trace. -/
theorem render_fold_host [LinearOrderedField α] (env : Env α) (props : Props α) (now : α)
    (l : List ℕ) : ∀ s : State α,
    (l.foldl (fun s _ => render env props now s) s).timers = s.timers ∧
    (l.foldl (fun s _ => render env props now s) s).resizeListener = s.resizeListener ∧
    resizeCalls (l.foldl (fun s _ => render env props now s) s).trace = resizeCalls s.trace := by
  induction l with
  | nil => intro s; simp
  | cons a rest ih =>
    intro s
    simp only [List.foldl_cons]
    obtain ⟨h1, h2, h3⟩ := ih (render env props now s)
    refine ⟨h1.trans rfl, h2.trans rfl, h3.trans ?_⟩
    have ht : (render env props now s).trace = s.trace ++ [Call.render now] := rfl
    rw [ht, resizeCalls_append]
    simp [resizeCalls]

theorem runAnimationFrame_host [LinearOrderedField α] (env : Env α) (props : Props α)
    (now : α) (s : State α) :
    (runAnimationFrame env props now s).timers = s.timers ∧
    (runAnimationFrame env props now s).resizeListener = s.resizeListener ∧
    resizeCalls (runAnimationFrame env props now s).trace = resizeCalls s.trace :=
  render_fold_host env props now s.rafCallbacks { s with rafCallbacks := [] }

theorem handleResize_listener [LinearOrderedField α] (clock : α) (s : State α) :
    (handleResize clock s).resizeListener = s.resizeListener := by
  by_cases h : truthy s.resizeTimeout = true <;> simp [handleResize, h, clearTimeout]

/-- The resize listener stays registered in every state that a mounted instance reaches. -/
theorem run_listener [LinearOrderedField α] [FloorRing α] (env : Env α) (props : Props α)
    (es : List (Event α)) : ∀ s : State α, s.resizeListener = true →
      (run env props s es).resizeListener = true := by
  induction es with
  | nil => intro s h; exact h
  | cons e rest ih =>
    intro s h
    refine ih _ ?_
    cases e with
    | animationFrame now => exact (runAnimationFrame_host env props now s).2.1.trans h
    | resizeNotification clock =>
      simp only [step, dispatchResize, h, if_true]
      exact (handleResize_listener clock s).trans h
    | timersDue clock =>
      simp only [step, runTimers]
      exact (resize_fold env clock _ _).2.2.2.2.trans h

/-- During a burst, with animation frames in between, the single pending timeout is the one
set by the latest notification, and resize is not called. -/
theorem burst_pending [LinearOrderedField α] [FloorRing α] (env : Env α) (props : Props α) :
    ∀ (es : List (Event α)) (prev : α) (s : State α) (id : ℕ), Inv s →
      s.timers = [(id, prev + 120)] → s.resizeListener = true →
      quietBurst 120 prev es = true →
      Inv (run env props s es) ∧
      (∃ id', (run env props s es).timers = [(id', lastNotify prev es + 120)]) ∧
      resizeCalls (run env props s es).trace = resizeCalls s.trace := by
  intro es
  induction es with
  | nil =>
    intro prev s id hinv ht _ _
    exact ⟨hinv, ⟨id, ht⟩, rfl⟩
  | cons e rest ih =>
    intro prev s id hinv ht hl hg
    cases e with
    | animationFrame now =>
      simp only [quietBurst] at hg
      obtain ⟨k1, k2, k3⟩ := runAnimationFrame_host env props now s
      obtain ⟨r1, r2, r3⟩ := ih prev (runAnimationFrame env props now s) id
        (inv_runAnimationFrame env props now s hinv) (k1.trans ht) (k2.trans hl) hg
      simp only [run_cons, step, lastNotify]
      exact ⟨r1, r2, r3.trans k3⟩
    | resizeNotification clock =>
      simp only [quietBurst, Bool.and_eq_true, decide_eq_true_eq] at hg
      obtain ⟨_, hrest⟩ := hg
      have h2 : step env props s (Event.resizeNotification clock) = handleResize clock s := by
        simp [step, dispatchResize, hl]
      obtain ⟨k1, _, _, _, k5, k6⟩ := handleResize_timers clock s hinv
      have hinv2 : Inv (handleResize clock s) := by
        rw [← h2]; exact inv_step env props s _ hinv
      obtain ⟨r1, r2, r3⟩ := ih clock (handleResize clock s) (s.timerId + 1) hinv2 k1
        (k5.trans hl) hrest
      simp only [run_cons, h2, lastNotify]
      exact ⟨r1, r2, r3.trans (by rw [k6])⟩
    | timersDue clock =>
      simp only [quietBurst, Bool.and_eq_true, decide_eq_true_eq] at hg
      obtain ⟨hlt, hrest⟩ := hg
      have h1 : step env props s (Event.timersDue clock) = s :=
        runTimers_not_due env clock s id (prev + 120) ht hlt
      simp only [run_cons, h1, lastNotify]
      exact ih prev s id hinv ht hl hrest

/-- With no timeout pending and no further notification, resize is not called. -/
theorem quiet_after [LinearOrderedField α] [FloorRing α] (env : Env α) (props : Props α) :
    ∀ (es : List (Event α)) (s : State α), s.timers = [] → noNotification es = true →
      (run env props s es).timers = [] ∧
      resizeCalls (run env props s es).trace = resizeCalls s.trace := by
  intro es
  induction es with
  | nil => intro s ht _; exact ⟨ht, rfl⟩
  | cons e rest ih =>
    intro s ht hn
    cases e with
    | animationFrame now =>
      simp only [noNotification] at hn
      obtain ⟨k1, _, k3⟩ := runAnimationFrame_host env props now s
      obtain ⟨r1, r2⟩ := ih (runAnimationFrame env props now s) (k1.trans ht) hn
      simp only [run_cons, step]
      exact ⟨r1, r2.trans k3⟩
    | resizeNotification clock => simp [noNotification] at hn
    | timersDue clock =>
      simp only [noNotification] at hn
      have h1 : step env props s (Event.timersDue clock) = s := runTimers_empty env clock s ht
      simp only [run_cons, h1]
      exact ih s ht hn

/-- C9: in every state that a mounted instance reaches, for every burst of resize
notifications in which each notification arrives less than 120 after the previous one and
none follows the last (animation frames may come in between, and the host may look at its
timeouts at any time before the last notification plus 120): the debouncer does not call
resize during the burst; when the host runs the timeouts at a time horizon at or after the
time of the last notification plus 120 (on a punctual host, at that time), the debouncer
calls resize exactly once, at that time and with the viewport size read then, which sets the
closure variables, the backing store, the CSS size and the transform from it; no timeout
is pending afterwards, and no call of resize follows while no notification arrives. -/
theorem C9_resize_debounce [LinearOrderedField α] [FloorRing α] (env : Env α) (props : Props α)
    (clock : α) (rafId timerId : ℕ) (before : List (Event α)) (first : α)
    (burst : List (Event α)) (horizon : α)
    (hquiet : quietBurst 120 first burst = true)
    (hh : lastNotify first burst + 120 ≤ horizon) :
    resizeCalls (run env props (run env props (mount env clock rafId timerId) before)
        (Event.resizeNotification first :: burst)).trace =
      resizeCalls (run env props (mount env clock rafId timerId) before).trace ∧
    resizeCalls (run env props (run env props (mount env clock rafId timerId) before)
        (Event.resizeNotification first :: burst ++ [Event.timersDue horizon])).trace =
      resizeCalls (run env props (mount env clock rafId timerId) before).trace ++
        [(horizon, env.innerWidth horizon, env.innerHeight horizon)] ∧
    (run env props (run env props (mount env clock rafId timerId) before)
        (Event.resizeNotification first :: burst ++ [Event.timersDue horizon])).timers = [] ∧
    (run env props (run env props (mount env clock rafId timerId) before)
        (Event.resizeNotification first :: burst ++ [Event.timersDue horizon])).width =
      env.innerWidth horizon ∧
    (run env props (run env props (mount env clock rafId timerId) before)
        (Event.resizeNotification first :: burst ++ [Event.timersDue horizon])).height =
      env.innerHeight horizon ∧
    (run env props (run env props (mount env clock rafId timerId) before)
        (Event.resizeNotification first :: burst ++ [Event.timersDue horizon])).surface.canvas.width
      = max 1 ⌊env.innerWidth horizon * getDPR env horizon⌋ ∧
    (run env props (run env props (mount env clock rafId timerId) before)
        (Event.resizeNotification first :: burst ++ [Event.timersDue horizon])).surface.canvas.height
      = max 1 ⌊env.innerHeight horizon * getDPR env horizon⌋ ∧
    (run env props (run env props (mount env clock rafId timerId) before)
        (Event.resizeNotification first :: burst ++
          [Event.timersDue horizon])).surface.canvas.styleWidth =
      CssLength.px (env.innerWidth horizon) ∧
    (run env props (run env props (mount env clock rafId timerId) before)
        (Event.resizeNotification first :: burst ++
          [Event.timersDue horizon])).surface.canvas.styleHeight =
      CssLength.px (env.innerHeight horizon) ∧
    (run env props (run env props (mount env clock rafId timerId) before)
        (Event.resizeNotification first :: burst ++
          [Event.timersDue horizon])).surface.ctx.cur.transform =
      { a := getDPR env horizon, b := 0, c := 0, d := getDPR env horizon, e := 0, f := 0 } ∧
    (∀ later : List (Event α), noNotification later = true →
      resizeCalls (run env props (run env props (mount env clock rafId timerId) before)
          ((Event.resizeNotification first :: burst ++ [Event.timersDue horizon]) ++ later)).trace =
        resizeCalls (run env props (mount env clock rafId timerId) before).trace ++
          [(horizon, env.innerWidth horizon, env.innerHeight horizon)]) := by
  have hinv0 := inv_run env props before _ (inv_mount env clock rafId timerId)
  have hl0 : (run env props (mount env clock rafId timerId) before).resizeListener = true :=
    run_listener env props before _ rfl
  have h2 : step env props (run env props (mount env clock rafId timerId) before)
      (Event.resizeNotification first) =
      handleResize first (run env props (mount env clock rafId timerId) before) := by
    simp [step, dispatchResize, hl0]
  obtain ⟨k1, _, _, _, k5, k6⟩ := handleResize_timers first _ hinv0
  have hinv1 : Inv (handleResize first (run env props (mount env clock rafId timerId) before)) := by
    rw [← h2]; exact inv_step env props _ _ hinv0
  obtain ⟨_, ⟨id, ht⟩, htr⟩ := burst_pending env props burst first _ _ hinv1 k1
    (k5.trans hl0) hquiet
  rw [k6] at htr
  have hB : run env props (run env props (mount env clock rafId timerId) before)
      (Event.resizeNotification first :: burst) =
      run env props (handleResize first (run env props (mount env clock rafId timerId) before))
        burst := by
    rw [run_cons, h2]
  have hF : run env props (run env props (mount env clock rafId timerId) before)
      (Event.resizeNotification first :: burst ++ [Event.timersDue horizon]) =
      resize env horizon
        { run env props (handleResize first
            (run env props (mount env clock rafId timerId) before)) burst with timers := [] } := by
    rw [run_append, hB, run_cons]
    exact runTimers_due env horizon _ id _ ht hh
  have hcalls : resizeCalls (resize env horizon
      { run env props (handleResize first
          (run env props (mount env clock rafId timerId) before)) burst with timers := [] }).trace =
      resizeCalls (run env props (mount env clock rafId timerId) before).trace ++
        [(horizon, env.innerWidth horizon, env.innerHeight horizon)] := by
    have : (resize env horizon
        { run env props (handleResize first
            (run env props (mount env clock rafId timerId) before)) burst with timers := [] }).trace =
        (run env props (handleResize first
            (run env props (mount env clock rafId timerId) before)) burst).trace ++
          [Call.resize horizon (env.innerWidth horizon) (env.innerHeight horizon)] := rfl
    rw [this, resizeCalls_append, htr]
    rfl
  refine ⟨?_, ?_, ?_, ?_, ?_, ?_, ?_, ?_, ?_, ?_, ?_⟩
  · rw [hB]; exact htr
  · rw [hF]; exact hcalls
  · rw [hF]; rfl
  · rw [hF]; rfl
  · rw [hF]; rfl
  · rw [hF]; rfl
  · rw [hF]; rfl
  · rw [hF]; rfl
  · rw [hF]; rfl
  · rw [hF]; rfl
  · intro later hn
    rw [run_append, hF]
    obtain ⟨_, r2⟩ := quiet_after env props later (resize env horizon
      { run env props (handleResize first
          (run env props (mount env clock rafId timerId) before)) burst with timers := [] })
      rfl hn
    rw [r2, hcalls]

theorem C9_resize_debounce_witness :
    resizeCalls (run exampleHost defaultProps (run exampleHost defaultProps
        (mount exampleHost 0 0 0) [])
      (Event.resizeNotification 0 ::
        [Event.animationFrame 16, Event.resizeNotification 30, Event.animationFrame 48,
         Event.timersDue 50, Event.resizeNotification 60, Event.animationFrame 64,
         Event.timersDue 170] ++ [Event.timersDue 180])).trace =
      [(0, 1001, 801), (180, 641, 481)] ∧
    (run exampleHost defaultProps (run exampleHost defaultProps (mount exampleHost 0 0 0) [])
      (Event.resizeNotification 0 ::
        [Event.animationFrame 16, Event.resizeNotification 30, Event.animationFrame 48,
         Event.timersDue 50, Event.resizeNotification 60, Event.animationFrame 64,
         Event.timersDue 170] ++ [Event.timersDue 180])).width = 641 ∧
    (run exampleHost defaultProps (run exampleHost defaultProps (mount exampleHost 0 0 0) [])
      (Event.resizeNotification 0 ::
        [Event.animationFrame 16, Event.resizeNotification 30, Event.animationFrame 48,
         Event.timersDue 50, Event.resizeNotification 60, Event.animationFrame 64,
         Event.timersDue 170] ++ [Event.timersDue 180])).surface.canvas.width = 961 := by
  have h := C9_resize_debounce exampleHost defaultProps 0 0 0 [] 0
    [Event.animationFrame 16, Event.resizeNotification 30, Event.animationFrame 48,
     Event.timersDue 50, Event.resizeNotification 60, Event.animationFrame 64,
     Event.timersDue 170] 180
    (by simp [quietBurst]; norm_num) (by simp [lastNotify]; norm_num)
  have hw : exampleHost.innerWidth 180 = 641 := by norm_num [exampleHost]
  have hh : exampleHost.innerHeight 180 = 481 := by norm_num [exampleHost]
  have hg : getDPR exampleHost 180 = 3 / 2 := by simp [getDPR, exampleHost]
  have hm : resizeCalls (run exampleHost defaultProps (mount exampleHost 0 0 0) []).trace =
      [(0, 1001, 801)] := by
    have ht : (run exampleHost defaultProps (mount exampleHost 0 0 0) []).trace =
        [Call.resize 0 (exampleHost.innerWidth 0) (exampleHost.innerHeight 0)] := rfl
    rw [ht]
    norm_num [resizeCalls, exampleHost]
  have hf : ⌊(641 : ℚ) * (3 / 2)⌋ = 961 := by
    rw [Int.floor_eq_iff]; norm_num
  refine ⟨?_, ?_, ?_⟩
  · rw [h.2.1, hm, hw, hh]; rfl
  · rw [h.2.2.2.1, hw]
  · rw [h.2.2.2.2.2.1, hw, hg, hf]; rfl

end HostProofs

end AnimatedBG
